import Mathlib

/-!
EGISAPTrustlet.h (egistec::ganges): the shared-buffer layout of the trustlet protocol.

A shallow embedding of `src/egistec/ganges/EGISAPTrustlet.h`.

* The shared ION buffer is a list of bytes; a pointer into it is the index of a byte,
  counted from the first byte of the mapping (`*mLockedBuffer`).
* A memory access that leaves the buffer has no defined result in C++; here it is `none`.
* `uint32_t` values are natural numbers, stored as four bytes, least significant first
  (the ARM targets of this HAL are little-endian); a store keeps the low 32 bits.
* Struct layouts are computed from the member lists with the C layout rule (every member
  at the next multiple of its alignment, the size rounded up to the struct alignment),
  and the `static_assert`s of the header are theorems about the result.
-/

set_option maxRecDepth 8192

namespace egistec.ganges

/-! ## Enumerations -/

/-- The opcodes of `enum class CommandId : uint32_t`. -/
inductive CommandId
  | SetMasterKey
  | InitializeAlgo
  | InitializeSensor
  | Calibrate
  | GetImage
  | InitializeEnroll
  | Enroll
  | FinalizeEnroll
  | SaveEnrolledPrint
  | GetPrintIds
  | SetWorkMode
  | SetUserDataPath
  | SetDataPath
  | CheckSecureId
  | CheckAuthToken
  | GetAuthenticatorId
  | IsFingerLost
  | OpenSpi
  | CloseSpi
  deriving DecidableEq

/-- The enumerator values of `CommandId`: the `uint32_t` stored for each opcode. -/
def CommandId.toUInt32 : CommandId → Nat
  | .SetMasterKey => 0
  | .InitializeAlgo => 1
  | .InitializeSensor => 2
  | .Calibrate => 6
  | .GetImage => 0x8
  | .InitializeEnroll => 0xb
  | .Enroll => 0xc
  | .FinalizeEnroll => 0xd
  | .SaveEnrolledPrint => 0xe
  | .GetPrintIds => 0x16
  | .SetWorkMode => 0x17
  | .SetUserDataPath => 0x18
  | .SetDataPath => 0x19
  | .CheckSecureId => 0x1e
  | .CheckAuthToken => 0x1f
  | .GetAuthenticatorId => 0x20
  | .IsFingerLost => 0x25
  | .OpenSpi => 0x29
  | .CloseSpi => 0x2a

/-- All enumerators of `CommandId`, in declaration order. -/
def CommandId.all : List CommandId :=
  [.SetMasterKey, .InitializeAlgo, .InitializeSensor, .Calibrate, .GetImage,
   .InitializeEnroll, .Enroll, .FinalizeEnroll, .SaveEnrolledPrint, .GetPrintIds,
   .SetWorkMode, .SetUserDataPath, .SetDataPath, .CheckSecureId, .CheckAuthToken,
   .GetAuthenticatorId, .IsFingerLost, .OpenSpi, .CloseSpi]

/-- Reading a stored `uint32_t` as a `CommandId`: the enumerator that has this value, if any
(a `command` field can hold any 32-bit value; only 19 of them name an opcode). -/
def CommandId.ofUInt32 (v : Nat) : Option CommandId :=
  CommandId.all.find? (fun c => c.toUInt32 == v)

/-! ## C object layout -/

/-- Size and alignment of a C type, in bytes. -/
structure CType where
  size : Nat
  align : Nat
  deriving DecidableEq

/-- A `uint32_t`. -/
def uint32_t : CType := ⟨4, 4⟩

/-- An `enum class ... : uint32_t` has the layout of its underlying type. -/
def enum_uint32_t : CType := uint32_t

/-- A flexible array member `char data[]`: no size of its own, alignment of `char`. -/
def char_flex : CType := ⟨0, 1⟩

/-- The next multiple of `a` at or after `n`. -/
def alignUp (n a : Nat) : Nat := (n + a - 1) / a * a

/-- Offset of member `f` when the members `ms` are laid out in order from offset `cur`
(the offset one past the last member when `f` is not among them). -/
def offsetOfFrom {α : Type} [DecidableEq α] (cur : Nat) : List (α × CType) → α → Nat
  | [], _ => cur
  | (g, t) :: ms, f =>
    if g = f then alignUp cur t.align else offsetOfFrom (alignUp cur t.align + t.size) ms f

/-- The offset one past the last member of `ts` laid out in order from offset `cur`. -/
def layoutEnd (cur : Nat) : List CType → Nat
  | [] => cur
  | t :: ts => layoutEnd (alignUp cur t.align + t.size) ts

/-- The alignment of an aggregate: the largest alignment of its members. -/
def aggregateAlign (ts : List CType) : Nat := ts.foldl (fun a t => max a t.align) 1

/-- The type of a struct with members `ts`. -/
def structType (ts : List CType) : CType :=
  ⟨alignUp (layoutEnd 0 ts) (aggregateAlign ts), aggregateAlign ts⟩

/-- The type of a union with members `ts`: all at offset 0, as large as the largest. -/
def unionType (ts : List CType) : CType :=
  ⟨alignUp (ts.foldl (fun a t => max a t.size) 0) (aggregateAlign ts), aggregateAlign ts⟩

/-! ## trustlet_buffer_t -/

/-- The members of `trustlet_buffer_t`. -/
inductive trustlet_buffer_t.Member
  | process
  | command
  | gid
  | fid
  | buffer_size
  | data
  deriving DecidableEq

/-- The declaration of `trustlet_buffer_t`, member by member. -/
def trustlet_buffer_t.members : List (trustlet_buffer_t.Member × CType) :=
  [(.process, uint32_t), (.command, enum_uint32_t), (.gid, uint32_t), (.fid, uint32_t),
   (.buffer_size, uint32_t), (.data, char_flex)]

/-- The value of `offsetof(trustlet_buffer_t, m)`. -/
def trustlet_buffer_t.offsetof (m : trustlet_buffer_t.Member) : Nat :=
  offsetOfFrom 0 trustlet_buffer_t.members m

/-- The value of `sizeof(trustlet_buffer_t)`. -/
def trustlet_buffer_t.sizeof : Nat :=
  (structType (trustlet_buffer_t.members.map Prod.snd)).size

/-- The five 32-bit fields of the header (everything but the flexible `data[]`). -/
inductive HeaderField
  | process
  | command
  | gid
  | fid
  | buffer_size
  deriving DecidableEq

/-- The member a header field names. -/
def HeaderField.member : HeaderField → trustlet_buffer_t.Member
  | .process => .process
  | .command => .command
  | .gid => .gid
  | .fid => .fid
  | .buffer_size => .buffer_size

/-- Offset of a header field inside `trustlet_buffer_t`. -/
def HeaderField.offset (f : HeaderField) : Nat := trustlet_buffer_t.offsetof f.member

/-! ## base_transaction_t -/

/-- The named members of `base_transaction_t`, and its anonymous union. -/
inductive base_transaction_t.Member
  | process_id
  | no_extra_buffer
  | unk0
  | extra_buffer_size
  | ret_val
  | anon_union
  deriving DecidableEq

/-- The members of the anonymous struct inside the union. -/
inductive base_transaction_t.AnonMember
  | unk1
  | unk2
  | extra_flags
  deriving DecidableEq

/-- The declaration of the anonymous struct `{ unk1; unk2; extra_flags; }`. -/
def base_transaction_t.anonStruct : List (base_transaction_t.AnonMember × CType) :=
  [(.unk1, uint32_t), (.unk2, uint32_t), (.extra_flags, uint32_t)]

/-- The anonymous union of the anonymous struct and `char data[]`. -/
def base_transaction_t.anonUnion : CType :=
  unionType [structType (base_transaction_t.anonStruct.map Prod.snd), char_flex]

/-- The declaration of `base_transaction_t`, member by member. -/
def base_transaction_t.members : List (base_transaction_t.Member × CType) :=
  [(.process_id, uint32_t), (.no_extra_buffer, uint32_t), (.unk0, uint32_t),
   (.extra_buffer_size, uint32_t), (.ret_val, uint32_t),
   (.anon_union, base_transaction_t.anonUnion)]

/-- The value of `sizeof(base_transaction_t)`. -/
def base_transaction_t.sizeof : Nat :=
  (structType (base_transaction_t.members.map Prod.snd)).size

/-- The eight 32-bit fields of the envelope. -/
inductive BaseField
  | process_id
  | no_extra_buffer
  | unk0
  | extra_buffer_size
  | ret_val
  | unk1
  | unk2
  | extra_flags
  deriving DecidableEq

/-- Offset of an envelope field inside `base_transaction_t`; the members of the anonymous
struct are placed inside the anonymous union, whose members all start at its offset. -/
def BaseField.offset : BaseField → Nat
  | .process_id => offsetOfFrom 0 base_transaction_t.members .process_id
  | .no_extra_buffer => offsetOfFrom 0 base_transaction_t.members .no_extra_buffer
  | .unk0 => offsetOfFrom 0 base_transaction_t.members .unk0
  | .extra_buffer_size => offsetOfFrom 0 base_transaction_t.members .extra_buffer_size
  | .ret_val => offsetOfFrom 0 base_transaction_t.members .ret_val
  | .unk1 => offsetOfFrom 0 base_transaction_t.members .anon_union
      + offsetOfFrom 0 base_transaction_t.anonStruct .unk1
  | .unk2 => offsetOfFrom 0 base_transaction_t.members .anon_union
      + offsetOfFrom 0 base_transaction_t.anonStruct .unk2
  | .extra_flags => offsetOfFrom 0 base_transaction_t.members .anon_union
      + offsetOfFrom 0 base_transaction_t.anonStruct .extra_flags

/-- The value of `offsetof(base_transaction_t, data)`: the start of the anonymous union. -/
def base_transaction_t.dataOffset : Nat :=
  offsetOfFrom 0 base_transaction_t.members .anon_union

/-! ## The buffer and its accesses -/

/-- One byte of memory. -/
abbrev Byte := Fin 256

/-- The bytes of the locked ION buffer, from its first byte on. -/
abbrev Buffer := List Byte

/-- The `n` bytes at `addr`, when they all lie inside the buffer. -/
def readBytes (b : Buffer) (addr n : Nat) : Option (List Byte) :=
  if addr + n ≤ b.length then some ((b.drop addr).take n) else none

/-- The buffer with the bytes `xs` stored at `addr`, when they all lie inside the buffer. -/
def writeBytes (b : Buffer) (addr : Nat) (xs : List Byte) : Option Buffer :=
  if addr + xs.length ≤ b.length then
    some (b.take addr ++ xs ++ b.drop (addr + xs.length))
  else none

/-- The C `memset(dst, c, n)`: `n` bytes of value `(unsigned char)c`. -/
def memset (b : Buffer) (dst c n : Nat) : Option Buffer :=
  writeBytes b dst (List.replicate n (Fin.ofNat c))

/-- The C `memmove(dst, src, n)`: the `n` source bytes are read first, then stored. -/
def memmove (b : Buffer) (dst src n : Nat) : Option Buffer :=
  (readBytes b src n).bind (writeBytes b dst)

/-- The four bytes of a `uint32_t`, least significant first. -/
def bytesOfU32 (v : Nat) : List Byte :=
  [Fin.ofNat v, Fin.ofNat (v / 256), Fin.ofNat (v / 65536), Fin.ofNat (v / 16777216)]

/-- The number a sequence of bytes stands for, least significant first. -/
def natOfBytes : List Byte → Nat
  | [] => 0
  | x :: xs => x.val + 256 * natOfBytes xs

/-- A `uint32_t` load. -/
def load32 (b : Buffer) (addr : Nat) : Option Nat :=
  (readBytes b addr 4).map natOfBytes

/-- A `uint32_t` store. -/
def store32 (b : Buffer) (addr v : Nat) : Option Buffer :=
  writeBytes b addr (bytesOfU32 v)

/-- Reading field `f` of the `trustlet_buffer_t` at address `p`. -/
def trustlet_buffer_t.get (b : Buffer) (p : Nat) (f : HeaderField) : Option Nat :=
  load32 b (p + f.offset)

/-- Assigning `v` to field `f` of the `trustlet_buffer_t` at address `p`. -/
def trustlet_buffer_t.set (b : Buffer) (p : Nat) (f : HeaderField) (v : Nat) : Option Buffer :=
  store32 b (p + f.offset) v

/-- Address of `data[i]` of the `trustlet_buffer_t` at address `p`. -/
def trustlet_buffer_t.dataAddr (p i : Nat) : Nat :=
  p + trustlet_buffer_t.offsetof .data + i

/-- Reading field `f` of the `base_transaction_t` at address `p`. -/
def base_transaction_t.get (b : Buffer) (p : Nat) (f : BaseField) : Option Nat :=
  load32 b (p + f.offset)

/-- Assigning `v` to field `f` of the `base_transaction_t` at address `p`. -/
def base_transaction_t.set (b : Buffer) (p : Nat) (f : BaseField) (v : Nat) : Option Buffer :=
  store32 b (p + f.offset) v

/-- Address of `data[i]` of the `base_transaction_t` at address `p`. -/
def base_transaction_t.dataAddr (p i : Nat) : Nat :=
  p + base_transaction_t.dataOffset + i

/-! ## class EGISAPTrustlet::API -/

/-- The state of an `API` object: the bytes of the buffer it holds locked. -/
structure API where
  mLockedBuffer : Buffer

/-- The constant `RequestOffset`. -/
def API.RequestOffset : Nat := 0x5c

/-- The constant `ResponseOffset`. -/
def API.ResponseOffset : Nat := 0x14

/-- The pointer `*mLockedBuffer`: the first byte of the buffer, the origin of all indices. -/
def API.bufferPtr (_api : API) : Nat := 0

/-- The address `GetRequest()` refers to. -/
def API.GetRequest (api : API) : Nat := api.bufferPtr + API.RequestOffset

/-- The address `GetResponse()` refers to. -/
def API.GetResponse (api : API) : Nat := api.bufferPtr + API.ResponseOffset

/-- The address `Base()` refers to. -/
def API.Base (api : API) : Nat := api.bufferPtr

/-- The method `PrepareBase(process)`: the envelope is zeroed, then `process_id` is assigned;
returns the new state and the reference to the envelope. -/
def API.PrepareBase (api : API) (process : Nat) : Option (API × Nat) := do
  let base := api.Base
  let b1 ← memset api.mLockedBuffer base 0 base_transaction_t.sizeof
  let b2 ← base_transaction_t.set b1 base .process_id process
  pure (⟨b2⟩, base)

/-- The method `MoveResponseToRequest()`. -/
def API.MoveResponseToRequest (api : API) : Option API := do
  let b ← memmove api.mLockedBuffer api.GetRequest api.GetResponse trustlet_buffer_t.sizeof
  pure ⟨b⟩

/-- Width of `size_t` in bits on the 64-bit targets of this HAL. -/
def SIZE_BITS : Nat := 64

/-- The expression of `BufferSize()` for a header of `h` bytes and offsets `r` and `s`:
`h + std::max(r, s)` in `size_t` arithmetic. -/
def API.bufferSizeOf (h r s : Nat) : Nat := (h + max r s) % 2 ^ SIZE_BITS

/-- The constant function `BufferSize()`. -/
def API.BufferSize : Nat :=
  API.bufferSizeOf trustlet_buffer_t.sizeof API.RequestOffset API.ResponseOffset

/-! ## ImageResult and enroll_result_t -/

/-- The outcomes of `enum class ImageResult : uint32_t`. -/
inductive ImageResult
  | Good
  | Detected1
  | TooFast
  | Detected3
  | Lost
  | ImagerDirty
  | Partial
  | Nothing
  | DirtOnSensor
  deriving DecidableEq

/-- The enumerator values of `ImageResult`. -/
def ImageResult.toUInt32 : ImageResult → Nat
  | .Good => 0
  | .Detected1 => 1
  | .TooFast => 2
  | .Detected3 => 3
  | .Lost => 6
  | .ImagerDirty => 7
  | .Partial => 8
  | .Nothing => 10
  | .DirtOnSensor => 0xd

/-- All enumerators of `ImageResult`, in declaration order. -/
def ImageResult.all : List ImageResult :=
  [.Good, .Detected1, .TooFast, .Detected3, .Lost, .ImagerDirty, .Partial, .Nothing,
   .DirtOnSensor]

/-- Reading a stored `uint32_t` as an `ImageResult`: the enumerator with this value, if
any. -/
def ImageResult.ofUInt32 (v : Nat) : Option ImageResult :=
  ImageResult.all.find? (fun r => r.toUInt32 == v)

/-- The C type `int` of the targets: 32 bits, aligned to 4 bytes. -/
def c_int : CType := ⟨4, 4⟩

/-- The members of `enroll_result_t`. -/
inductive EnrollField
  | status
  | percentage
  | dx
  | dy
  | unk0
  | score
  | unk1
  | unk2
  deriving DecidableEq

/-- The declaration of `enroll_result_t`, member by member. -/
def enroll_result_t.members : List (EnrollField × CType) :=
  [(.status, enum_uint32_t), (.percentage, c_int), (.dx, c_int), (.dy, c_int),
   (.unk0, c_int), (.score, c_int), (.unk1, c_int), (.unk2, c_int)]

/-- The value of `offsetof(enroll_result_t, f)`. -/
def enroll_result_t.offsetof (f : EnrollField) : Nat :=
  offsetOfFrom 0 enroll_result_t.members f

/-- The value of `sizeof(enroll_result_t)`. -/
def enroll_result_t.sizeof : Nat :=
  (structType (enroll_result_t.members.map Prod.snd)).size

/-- The `int` a 32-bit pattern stands for (two's complement). -/
def int32OfU32 (u : Nat) : Int :=
  if u < 2 ^ 31 then (u : Int) else (u : Int) - 2 ^ 32

/-- The 32-bit pattern of an `int` (two's complement). -/
def u32OfInt32 (v : Int) : Nat := (v % 2 ^ 32).toNat

/-- An `int` load. -/
def loadInt32 (b : Buffer) (addr : Nat) : Option Int :=
  (load32 b addr).map int32OfU32

/-- An `int` store. -/
def storeInt32 (b : Buffer) (addr : Nat) (v : Int) : Option Buffer :=
  store32 b addr (u32OfInt32 v)

/-- The value of an `enroll_result_t` object. `status` is kept as the stored `uint32_t`:
an `ImageResult` object can hold any value of its underlying type, not only the nine
enumerators (`ImageResult.ofUInt32` names the enumerator, if it is one). -/
structure enroll_result_t where
  status : Nat
  percentage : Int
  dx : Int
  dy : Int
  unk0 : Int
  score : Int
  unk1 : Int
  unk2 : Int
  deriving DecidableEq

/-- Reading the `enroll_result_t` at address `p`, member by member. -/
def enroll_result_t.load (b : Buffer) (p : Nat) : Option enroll_result_t := do
  let status ← load32 b (p + enroll_result_t.offsetof .status)
  let percentage ← loadInt32 b (p + enroll_result_t.offsetof .percentage)
  let dx ← loadInt32 b (p + enroll_result_t.offsetof .dx)
  let dy ← loadInt32 b (p + enroll_result_t.offsetof .dy)
  let unk0 ← loadInt32 b (p + enroll_result_t.offsetof .unk0)
  let score ← loadInt32 b (p + enroll_result_t.offsetof .score)
  let unk1 ← loadInt32 b (p + enroll_result_t.offsetof .unk1)
  let unk2 ← loadInt32 b (p + enroll_result_t.offsetof .unk2)
  pure ⟨status, percentage, dx, dy, unk0, score, unk1, unk2⟩

/-- Assigning `r` to the `enroll_result_t` at address `p`, member by member. -/
def enroll_result_t.store (b : Buffer) (p : Nat) (r : enroll_result_t) : Option Buffer := do
  let b ← store32 b (p + enroll_result_t.offsetof .status) r.status
  let b ← storeInt32 b (p + enroll_result_t.offsetof .percentage) r.percentage
  let b ← storeInt32 b (p + enroll_result_t.offsetof .dx) r.dx
  let b ← storeInt32 b (p + enroll_result_t.offsetof .dy) r.dy
  let b ← storeInt32 b (p + enroll_result_t.offsetof .unk0) r.unk0
  let b ← storeInt32 b (p + enroll_result_t.offsetof .score) r.score
  let b ← storeInt32 b (p + enroll_result_t.offsetof .unk1) r.unk1
  storeInt32 b (p + enroll_result_t.offsetof .unk2) r.unk2

/-- The field values are those of the C types: `status` a `uint32_t`, the rest `int`. -/
def enroll_result_t.InRange (r : enroll_result_t) : Prop :=
  r.status < 2 ^ 32 ∧
  (-2 ^ 31 ≤ r.percentage ∧ r.percentage < 2 ^ 31) ∧
  (-2 ^ 31 ≤ r.dx ∧ r.dx < 2 ^ 31) ∧
  (-2 ^ 31 ≤ r.dy ∧ r.dy < 2 ^ 31) ∧
  (-2 ^ 31 ≤ r.unk0 ∧ r.unk0 < 2 ^ 31) ∧
  (-2 ^ 31 ≤ r.score ∧ r.score < 2 ^ 31) ∧
  (-2 ^ 31 ≤ r.unk1 ∧ r.unk1 < 2 ^ 31) ∧
  (-2 ^ 31 ≤ r.unk2 ∧ r.unk2 < 2 ^ 31)

/-- A result with negative displacement and score. -/
def sampleEnrollResult : enroll_result_t :=
  ⟨ImageResult.Partial.toUInt32, 40, -3, -2147483648, 0, -1, 2147483647, 0⟩

/-- A block of 32 bytes: 0x80, 0x81, ..., 0x9f. -/
def sampleBlock : Buffer := (List.range 32).map (fun i => Fin.ofNat (0x80 + i))

/-! ## The enrollment state machine

The header declares `CheckAuthToken`, `CheckSecureId`, `GetNewPrintId`, `InitializeEnroll`,
`Enroll`, `FinalizeEnroll` and `SaveEnrolledPrint`; their bodies are in no source file at
hand. The definitions of this section follow the specification (sections 4.6 and 7). -/

/-- Modelled from the spec: the states of the enrollment state machine of section 4.6 (the
bodies of the enrollment methods of `EGISAPTrustlet` are missing). `Enrolling n` is the
state `Enrolling` after `n` successful `Enroll` responses. -/
inductive EnrollState
  | Idle
  | TokenVerified
  | SecureIdVerified
  | PrintIdAllocated
  | Enrolling (enrolled : Nat)
  | Finalized
  deriving DecidableEq

/-- Modelled from the spec: a call of one of the enrollment methods declared in the header,
with its arguments (the bodies of the methods are missing). -/
inductive EnrollCall
  | CheckAuthToken
  | CheckSecureId (gid user_id : Nat)
  | GetNewPrintId (gid : Nat)
  | InitializeEnroll
  | Enroll (gid fid : Nat)
  | FinalizeEnroll
  | SaveEnrolledPrint (gid fid : Nat)
  deriving DecidableEq

/-- Modelled from the spec: what a dispatcher call comes back with (section 7): success, a
transport error or a protocol error (the dispatcher `SendCommand` is only declared). -/
inductive DispatchResult
  | ok
  | transportError
  | protocolError
  deriving DecidableEq

/-- Modelled from the spec: what an enrollment method reports (section 7): the result of
its dispatcher call, or an ordering violation reported without any call (the bodies of the
methods are missing). -/
inductive EnrollStatus
  | ok
  | transportError
  | protocolError
  | orderingViolation
  deriving DecidableEq

/-- Modelled from the spec: the status a method reports for the result of its dispatcher
call (the bodies of the methods are missing). -/
def DispatchResult.status : DispatchResult → EnrollStatus
  | .ok => .ok
  | .transportError => .transportError
  | .protocolError => .protocolError

/-- Modelled from the spec: the transitions of the diagram of section 4.6, the state a
call leads to when its dispatcher call succeeds, `none` when the call is out of order in
this state; `FinalizeEnroll` needs at least one successful `Enroll` response and
`SaveEnrolledPrint` a finalized enrollment (the bodies of the methods are missing). -/
def EnrollState.next : EnrollState → EnrollCall → Option EnrollState
  | .Idle, .CheckAuthToken => some .TokenVerified
  | .TokenVerified, .CheckSecureId _ _ => some .SecureIdVerified
  | .SecureIdVerified, .GetNewPrintId _ => some .PrintIdAllocated
  | .PrintIdAllocated, .InitializeEnroll => some (.Enrolling 0)
  | .Enrolling n, .Enroll _ _ => some (.Enrolling (n + 1))
  | .Enrolling n, .FinalizeEnroll => if n = 0 then none else some .Finalized
  | .Finalized, .SaveEnrolledPrint _ _ => some .Idle
  | _, _ => none

/-- Modelled from the spec: the enrollment state of the trustlet object together with two
records kept for the statements: the calls dispatched to the trustlet, and every method
call with the status it reported, both newest first (the bodies of the methods are
missing). -/
structure EnrollMachine where
  state : EnrollState
  dispatched : List EnrollCall
  history : List (EnrollCall × EnrollStatus)
  deriving DecidableEq

/-- Modelled from the spec: the machine before any call, in state `Idle`. -/
def EnrollMachine.initial : EnrollMachine := ⟨.Idle, [], []⟩

/-- Modelled from the spec: one call of an enrollment method (the bodies of the methods are
missing); `answer` is what the dispatcher call comes back with if it is made. A call out of
order is reported at once, nothing is dispatched and the state stays; otherwise the call is
dispatched, success moves the state along the diagram, and a failure leaves the
enrollment uninitialized, back in `Idle` (section 4.6). -/
def EnrollMachine.call (m : EnrollMachine) (c : EnrollCall) (answer : DispatchResult) :
    EnrollStatus × EnrollMachine :=
  match m.state.next c with
  | none => (.orderingViolation, ⟨m.state, m.dispatched, (c, .orderingViolation) :: m.history⟩)
  | some s =>
    match answer with
    | .ok => (.ok, ⟨s, c :: m.dispatched, (c, .ok) :: m.history⟩)
    | .transportError =>
      (.transportError, ⟨.Idle, c :: m.dispatched, (c, .transportError) :: m.history⟩)
    | .protocolError =>
      (.protocolError, ⟨.Idle, c :: m.dispatched, (c, .protocolError) :: m.history⟩)

/-- Modelled from the spec: a sequence of method calls, each with the answer its
dispatcher call would get, run from `m` (the bodies of the methods are missing). -/
def EnrollMachine.run (m : EnrollMachine) : List (EnrollCall × DispatchResult) → EnrollMachine
  | [] => m
  | (c, answer) :: rest => (m.call c answer).2.run rest

/-- Modelled from the spec: whether, in a history (newest first), an `Enroll` call has
succeeded since the latest successful `InitializeEnroll`. -/
def enrollSucceededSinceInitialize : List (EnrollCall × EnrollStatus) → Bool
  | [] => false
  | (.Enroll _ _, .ok) :: _ => true
  | (.InitializeEnroll, .ok) :: _ => false
  | _ :: h => enrollSucceededSinceInitialize h

/-- Modelled from the spec: whether, in a history (newest first), `FinalizeEnroll` has
succeeded since the latest successful `InitializeEnroll`. -/
def finalizeSucceededSinceInitialize : List (EnrollCall × EnrollStatus) → Bool
  | [] => false
  | (.FinalizeEnroll, .ok) :: _ => true
  | (.InitializeEnroll, .ok) :: _ => false
  | _ :: h => finalizeSucceededSinceInitialize h

/-- Modelled from the spec: the history accounts for the state: the machine has counted a
successful `Enroll` only if one is in the history since the latest successful
`InitializeEnroll`, and is `Finalized` only if a successful `FinalizeEnroll` is. -/
def EnrollMachine.Consistent (m : EnrollMachine) : Prop :=
  (∀ n : Nat, m.state = .Enrolling (n + 1) →
    enrollSucceededSinceInitialize m.history = true) ∧
  (m.state = .Finalized → finalizeSucceededSinceInitialize m.history = true)

/-- The scenario of section 8 of the specification up to the last `Enroll`, every
dispatcher call succeeding. -/
def enrollScenario : List (EnrollCall × DispatchResult) :=
  [(.CheckAuthToken, .ok), (.CheckSecureId 1 42, .ok), (.GetNewPrintId 1, .ok),
   (.InitializeEnroll, .ok), (.Enroll 1 7, .ok), (.Enroll 1 7, .ok)]

/-! ## Sample states -/

/-- An `API` over a freshly mapped buffer: `BufferSize()` zero bytes. -/
def zeroedAPI : API := ⟨List.replicate API.BufferSize 0⟩

/-- An `API` over `BufferSize()` bytes, all zero but the first byte of the response header
(the low byte of its `process`), which is 1. -/
def responseMarkedAPI : API := ⟨(List.replicate API.BufferSize 0).set 0x14 1⟩

/-- An `API` over `BufferSize()` bytes that all hold 0xff. -/
def dirtyAPI : API := ⟨List.replicate API.BufferSize 0xff⟩

/-! ## Memory lemmas -/

theorem writeBytes_some_iff {b b' : Buffer} {a : Nat} {xs : List Byte} :
    writeBytes b a xs = some b' ↔
      a + xs.length ≤ b.length ∧ b' = b.take a ++ xs ++ b.drop (a + xs.length) := by
  unfold writeBytes
  split
  · rename_i h
    simp [h, eq_comm]
  · rename_i h
    simp [h]

theorem writeBytes_isSome {b : Buffer} {a : Nat} (xs : List Byte)
    (h : a + xs.length ≤ b.length) : ∃ b', writeBytes b a xs = some b' :=
  ⟨_, writeBytes_some_iff.mpr ⟨h, rfl⟩⟩

theorem writeBytes_length {b b' : Buffer} {a : Nat} {xs : List Byte}
    (h : writeBytes b a xs = some b') : b'.length = b.length := by
  obtain ⟨hle, rfl⟩ := writeBytes_some_iff.mp h
  simp only [List.length_append, List.length_take, List.length_drop]
  omega

theorem writeBytes_getElem? {b b' : Buffer} {a : Nat} {xs : List Byte}
    (h : writeBytes b a xs = some b') (i : Nat) :
    b'[i]? = if a ≤ i ∧ i < a + xs.length then xs[i - a]? else b[i]? := by
  obtain ⟨hle, rfl⟩ := writeBytes_some_iff.mp h
  have hta : (b.take a).length = a := by simp only [List.length_take]; omega
  by_cases h1 : i < a
  · have hc : ¬ (a ≤ i ∧ i < a + xs.length) := by omega
    rw [if_neg hc, List.append_assoc, List.getElem?_append_left (by omega),
      List.getElem?_take_of_lt h1]
  · by_cases h2 : i < a + xs.length
    · have hc : a ≤ i ∧ i < a + xs.length := by omega
      rw [if_pos hc, List.append_assoc, List.getElem?_append_right (by omega), hta,
        List.getElem?_append_left (by omega)]
    · have hc : ¬ (a ≤ i ∧ i < a + xs.length) := by omega
      rw [if_neg hc, List.getElem?_append_right (by simp only [List.length_append]; omega),
        List.getElem?_drop]
      congr 1
      simp only [List.length_append, hta]
      omega

theorem writeBytes_getElem?_outside {b b' : Buffer} {a : Nat} {xs : List Byte}
    (h : writeBytes b a xs = some b') {i : Nat} (hi : i < a ∨ a + xs.length ≤ i) :
    b'[i]? = b[i]? := by
  rw [writeBytes_getElem? h, if_neg (by omega)]

theorem readBytes_some_iff {b : Buffer} {a n : Nat} {xs : List Byte} :
    readBytes b a n = some xs ↔ a + n ≤ b.length ∧ xs = (b.drop a).take n := by
  unfold readBytes
  split
  · rename_i h
    simp [h, eq_comm]
  · rename_i h
    simp [h]

theorem readBytes_isSome {b : Buffer} {a n : Nat} (h : a + n ≤ b.length) :
    ∃ xs, readBytes b a n = some xs :=
  ⟨_, readBytes_some_iff.mpr ⟨h, rfl⟩⟩

theorem readBytes_length {b : Buffer} {a n : Nat} {xs : List Byte}
    (h : readBytes b a n = some xs) : xs.length = n := by
  obtain ⟨hle, rfl⟩ := readBytes_some_iff.mp h
  simp only [List.length_take, List.length_drop]
  omega

theorem readBytes_getElem? {b : Buffer} {a n : Nat} {xs : List Byte}
    (h : readBytes b a n = some xs) (i : Nat) :
    xs[i]? = if i < n then b[a + i]? else none := by
  obtain ⟨hle, rfl⟩ := readBytes_some_iff.mp h
  rw [List.getElem?_take, List.getElem?_drop]

theorem readBytes_congr {b b' : Buffer} {a n : Nat} (hl : b'.length = b.length)
    (h : ∀ i, a ≤ i → i < a + n → b'[i]? = b[i]?) : readBytes b' a n = readBytes b a n := by
  unfold readBytes
  rw [hl]
  split
  · congr 1
    apply List.ext_getElem?
    intro i
    rw [List.getElem?_take, List.getElem?_take, List.getElem?_drop, List.getElem?_drop]
    split
    · exact h _ (by omega) (by omega)
    · rfl
  · rfl

theorem readBytes_writeBytes_same {b b' : Buffer} {a : Nat} {xs : List Byte}
    (h : writeBytes b a xs = some b') : readBytes b' a xs.length = some xs := by
  have hl := writeBytes_length h
  have hle := (writeBytes_some_iff.mp h).1
  rw [readBytes_some_iff]
  refine ⟨by omega, ?_⟩
  apply List.ext_getElem?
  intro i
  rw [List.getElem?_take, List.getElem?_drop, writeBytes_getElem? h]
  by_cases hi : i < xs.length
  · rw [if_pos hi, if_pos (by omega)]
    congr 1
    omega
  · rw [if_neg hi]
    exact List.getElem?_eq_none (by omega)

theorem natOfBytes_bytesOfU32 (v : Nat) : natOfBytes (bytesOfU32 v) = v % 2 ^ 32 := by
  simp only [bytesOfU32, natOfBytes, Fin.ofNat, Nat.succ_eq_add_one]
  omega

theorem load32_store32_same {b b' : Buffer} {a v : Nat} (h : store32 b a v = some b') :
    load32 b' a = some (v % 2 ^ 32) := by
  unfold store32 at h
  have hr := readBytes_writeBytes_same h
  have hlen : (bytesOfU32 v).length = 4 := rfl
  rw [hlen] at hr
  rw [load32, hr, Option.map_some', natOfBytes_bytesOfU32]

theorem load32_congr {b b' : Buffer} {a : Nat} (hl : b'.length = b.length)
    (h : ∀ i, a ≤ i → i < a + 4 → b'[i]? = b[i]?) : load32 b' a = load32 b a := by
  unfold load32
  rw [readBytes_congr hl h]

theorem store32_length {b b' : Buffer} {a v : Nat} (h : store32 b a v = some b') :
    b'.length = b.length :=
  writeBytes_length h

theorem store32_isSome {b : Buffer} {a v : Nat} (h : a + 4 ≤ b.length) :
    ∃ b', store32 b a v = some b' :=
  writeBytes_isSome (bytesOfU32 v) h

theorem store32_getElem?_outside {b b' : Buffer} {a v : Nat} (h : store32 b a v = some b')
    {i : Nat} (hi : i < a ∨ a + 4 ≤ i) : b'[i]? = b[i]? :=
  writeBytes_getElem?_outside h hi

theorem load32_store32_disjoint {b b' : Buffer} {a a' v : Nat} (h : store32 b a v = some b')
    (hd : a' + 4 ≤ a ∨ a + 4 ≤ a') : load32 b' a' = load32 b a' :=
  load32_congr (store32_length h) (fun _ _ _ => store32_getElem?_outside h (by omega))

theorem load32_isSome {b : Buffer} {a : Nat} (h : a + 4 ≤ b.length) :
    ∃ v, load32 b a = some v := by
  obtain ⟨xs, hxs⟩ := readBytes_isSome h
  exact ⟨natOfBytes xs, by rw [load32, hxs, Option.map_some']⟩

/-! ## Layout facts used by the proofs -/

theorem trustlet_buffer_t.sizeof_trustlet_buffer_t : trustlet_buffer_t.sizeof = 20 := by decide

theorem base_transaction_t.sizeof_base_transaction_t : base_transaction_t.sizeof = 32 := by decide

theorem API.BufferSize_eq : API.BufferSize = 112 := by decide

theorem HeaderField.offset_in_header (f : HeaderField) : f.offset + 4 ≤ 20 := by
  cases f <;> decide

theorem HeaderField.offset_disjoint {f g : HeaderField} (h : f ≠ g) :
    f.offset + 4 ≤ g.offset ∨ g.offset + 4 ≤ f.offset := by
  cases f <;> cases g <;> first | exact absurd rfl h | decide

theorem BaseField.offset_in_envelope (f : BaseField) : f.offset + 4 ≤ 32 := by
  cases f <;> decide

theorem CommandId.toUInt32_lt (c : CommandId) : c.toUInt32 < 2 ^ 32 := by
  cases c <;> decide

theorem CommandId.ofUInt32_toUInt32 (c : CommandId) :
    CommandId.ofUInt32 c.toUInt32 = some c := by
  cases c <;> rfl

/-! ## Field accesses -/

theorem trustlet_buffer_t.set_isSome (b : Buffer) (p : Nat) (f : HeaderField) (v : Nat)
    (h : p + 20 ≤ b.length) : ∃ b', trustlet_buffer_t.set b p f v = some b' :=
  store32_isSome (by have := f.offset_in_header; omega)

theorem trustlet_buffer_t.set_length {b b' : Buffer} {p v : Nat} {f : HeaderField}
    (h : trustlet_buffer_t.set b p f v = some b') : b'.length = b.length :=
  store32_length h

theorem trustlet_buffer_t.get_set_same {b b' : Buffer} {p v : Nat} {f : HeaderField}
    (h : trustlet_buffer_t.set b p f v = some b') (hv : v < 2 ^ 32) :
    trustlet_buffer_t.get b' p f = some v := by
  rw [trustlet_buffer_t.get, load32_store32_same h, Nat.mod_eq_of_lt hv]

theorem trustlet_buffer_t.get_set_other {b b' : Buffer} {p v : Nat} {f : HeaderField}
    (g : HeaderField) (h : trustlet_buffer_t.set b p f v = some b') (hfg : f ≠ g) :
    trustlet_buffer_t.get b' p g = trustlet_buffer_t.get b p g :=
  load32_store32_disjoint h (by have := HeaderField.offset_disjoint hfg; omega)

theorem trustlet_buffer_t.set_frame {b b' : Buffer} {p v : Nat} {f : HeaderField}
    (h : trustlet_buffer_t.set b p f v = some b') {i : Nat} (hi : i < p ∨ p + 20 ≤ i) :
    b'[i]? = b[i]? :=
  store32_getElem?_outside h (by have := f.offset_in_header; omega)

theorem base_transaction_t.set_frame_envelope {b b' : Buffer} {p v : Nat} {f : BaseField}
    (h : base_transaction_t.set b p f v = some b') {i : Nat} (hi : i < p ∨ p + 32 ≤ i) :
    b'[i]? = b[i]? :=
  store32_getElem?_outside h (by have := f.offset_in_envelope; omega)

theorem memmove_some_iff {b b' : Buffer} {dst src n : Nat} :
    memmove b dst src n = some b' ↔
      src + n ≤ b.length ∧ dst + n ≤ b.length ∧
        b' = b.take dst ++ (b.drop src).take n ++ b.drop (dst + n) := by
  unfold memmove
  constructor
  · intro h
    obtain ⟨xs, hxs, hw⟩ := Option.bind_eq_some.mp h
    have hlen := readBytes_length hxs
    obtain ⟨h1, rfl⟩ := readBytes_some_iff.mp hxs
    obtain ⟨h2, rfl⟩ := writeBytes_some_iff.mp hw
    rw [hlen] at h2 ⊢
    exact ⟨h1, h2, rfl⟩
  · rintro ⟨h1, h2, rfl⟩
    have hxs := readBytes_some_iff.mpr ⟨h1, rfl⟩
    have hlen := readBytes_length hxs
    rw [hxs, Option.some_bind, writeBytes_some_iff, hlen]
    exact ⟨h2, rfl⟩

theorem memmove_length {b b' : Buffer} {dst src n : Nat}
    (h : memmove b dst src n = some b') : b'.length = b.length := by
  obtain ⟨xs, _, hw⟩ := Option.bind_eq_some.mp h
  exact writeBytes_length hw

theorem memmove_getElem? {b b' : Buffer} {dst src n : Nat}
    (h : memmove b dst src n = some b') (i : Nat) :
    b'[i]? = if dst ≤ i ∧ i < dst + n then b[src + (i - dst)]? else b[i]? := by
  obtain ⟨xs, hxs, hw⟩ := Option.bind_eq_some.mp h
  have hlen := readBytes_length hxs
  rw [writeBytes_getElem? hw, hlen]
  split
  · rw [readBytes_getElem? hxs, if_pos (by omega)]
  · rfl

theorem API.MoveResponseToRequest_some_iff {api api' : API} :
    api.MoveResponseToRequest = some api' ↔
      memmove api.mLockedBuffer 0x5c 0x14 20 = some api'.mLockedBuffer := by
  have h : api.MoveResponseToRequest =
      (memmove api.mLockedBuffer 0x5c 0x14 20).bind (fun b => some ⟨b⟩) := rfl
  rw [h]
  cases memmove api.mLockedBuffer 0x5c 0x14 20 with
  | none => simp
  | some b =>
    cases api'
    simp

theorem API.MoveResponseToRequest_isSome (api : API) (h : 0x70 ≤ api.mLockedBuffer.length) :
    ∃ api', api.MoveResponseToRequest = some api' :=
  ⟨⟨_⟩, API.MoveResponseToRequest_some_iff.mpr
    (memmove_some_iff.mpr ⟨by omega, by omega, rfl⟩)⟩

theorem memset_length {b b' : Buffer} {dst c n : Nat} (h : memset b dst c n = some b') :
    b'.length = b.length :=
  writeBytes_length h

theorem memset_isSome (b : Buffer) (dst c n : Nat) (h : dst + n ≤ b.length) :
    ∃ b', memset b dst c n = some b' :=
  writeBytes_isSome _ (by rw [List.length_replicate]; exact h)

theorem memset_getElem? {b b' : Buffer} {dst c n : Nat} (h : memset b dst c n = some b')
    (i : Nat) :
    b'[i]? = if dst ≤ i ∧ i < dst + n then some (Fin.ofNat c) else b[i]? := by
  unfold memset at h
  rw [writeBytes_getElem? h, List.length_replicate]
  split
  · rw [List.getElem?_replicate, if_pos (by omega)]
  · rfl

theorem load32_zero {b : Buffer} {a : Nat} (hlen : a + 4 ≤ b.length)
    (h : ∀ i, a ≤ i → i < a + 4 → b[i]? = some 0) : load32 b a = some 0 := by
  have hr : readBytes b a 4 = some [0, 0, 0, 0] := by
    rw [readBytes_some_iff]
    refine ⟨hlen, ?_⟩
    apply List.ext_getElem?
    intro i
    rw [List.getElem?_take, List.getElem?_drop]
    split
    · rw [h _ (by omega) (by omega)]
      have hi : i = 0 ∨ i = 1 ∨ i = 2 ∨ i = 3 := by omega
      rcases hi with rfl | rfl | rfl | rfl <;> rfl
    · exact (List.getElem?_eq_none (by simp only [List.length_cons, List.length_nil]; omega))
  rw [load32, hr]
  rfl

theorem API.PrepareBase_eq (api : API) (process : Nat) :
    api.PrepareBase process =
      (memset api.mLockedBuffer 0 0 32).bind (fun b1 =>
        (store32 b1 0 process).bind (fun b2 => some (⟨b2⟩, 0))) :=
  rfl

/-! ## The claims -/

/-- C1 (header round trip). In a buffer of at least `BufferSize()` bytes, through the view
`GetRequest()` and likewise through the view `GetResponse()`: assigning the five fields
`process`, `command`, `gid`, `fid`, `buffer_size` (32-bit values, `command` any `CommandId`)
succeeds, and reading the five fields back through the same view returns the values
assigned, the command field decoding to the same `CommandId`; and assigning any one field
leaves what the other four fields of that view read unchanged. -/
theorem header_round_trip (api : API) (p : Nat)
    (hview : p = api.GetRequest ∨ p = api.GetResponse)
    (c : CommandId) (process gid fid buffer_size : Nat)
    (hprocess : process < 2 ^ 32) (hgid : gid < 2 ^ 32) (hfid : fid < 2 ^ 32)
    (hsize : buffer_size < 2 ^ 32)
    (hlen : API.BufferSize ≤ api.mLockedBuffer.length) :
    (∃ b1 b2 b3 b4 b5 : Buffer,
      trustlet_buffer_t.set api.mLockedBuffer p .process process = some b1 ∧
      trustlet_buffer_t.set b1 p .command c.toUInt32 = some b2 ∧
      trustlet_buffer_t.set b2 p .gid gid = some b3 ∧
      trustlet_buffer_t.set b3 p .fid fid = some b4 ∧
      trustlet_buffer_t.set b4 p .buffer_size buffer_size = some b5 ∧
      trustlet_buffer_t.get b5 p .process = some process ∧
      trustlet_buffer_t.get b5 p .command = some c.toUInt32 ∧
      (trustlet_buffer_t.get b5 p .command).bind CommandId.ofUInt32 = some c ∧
      trustlet_buffer_t.get b5 p .gid = some gid ∧
      trustlet_buffer_t.get b5 p .fid = some fid ∧
      trustlet_buffer_t.get b5 p .buffer_size = some buffer_size) ∧
    (∀ (f g : HeaderField) (v : Nat), f ≠ g →
      ∃ b' : Buffer, trustlet_buffer_t.set api.mLockedBuffer p f v = some b' ∧
        trustlet_buffer_t.get b' p g = trustlet_buffer_t.get api.mLockedBuffer p g) := by
  have hp : p + 20 ≤ api.mLockedBuffer.length := by
    rw [API.BufferSize_eq] at hlen
    rcases hview with h | h <;>
      simp only [h, API.GetRequest, API.GetResponse, API.bufferPtr, API.RequestOffset,
        API.ResponseOffset] <;> omega
  constructor
  · obtain ⟨b1, h1⟩ := trustlet_buffer_t.set_isSome api.mLockedBuffer p .process process hp
    have l1 := trustlet_buffer_t.set_length h1
    obtain ⟨b2, h2⟩ := trustlet_buffer_t.set_isSome b1 p .command c.toUInt32 (by omega)
    have l2 := trustlet_buffer_t.set_length h2
    obtain ⟨b3, h3⟩ := trustlet_buffer_t.set_isSome b2 p .gid gid (by omega)
    have l3 := trustlet_buffer_t.set_length h3
    obtain ⟨b4, h4⟩ := trustlet_buffer_t.set_isSome b3 p .fid fid (by omega)
    have l4 := trustlet_buffer_t.set_length h4
    obtain ⟨b5, h5⟩ := trustlet_buffer_t.set_isSome b4 p .buffer_size buffer_size (by omega)
    have hcmd : trustlet_buffer_t.get b5 p .command = some c.toUInt32 := by
      rw [trustlet_buffer_t.get_set_other .command h5 (by decide),
        trustlet_buffer_t.get_set_other .command h4 (by decide),
        trustlet_buffer_t.get_set_other .command h3 (by decide),
        trustlet_buffer_t.get_set_same h2 c.toUInt32_lt]
    refine ⟨b1, b2, b3, b4, b5, h1, h2, h3, h4, h5, ?_, hcmd, ?_, ?_, ?_, ?_⟩
    · rw [trustlet_buffer_t.get_set_other .process h5 (by decide),
        trustlet_buffer_t.get_set_other .process h4 (by decide),
        trustlet_buffer_t.get_set_other .process h3 (by decide),
        trustlet_buffer_t.get_set_other .process h2 (by decide),
        trustlet_buffer_t.get_set_same h1 hprocess]
    · rw [hcmd, Option.some_bind, CommandId.ofUInt32_toUInt32]
    · rw [trustlet_buffer_t.get_set_other .gid h5 (by decide),
        trustlet_buffer_t.get_set_other .gid h4 (by decide),
        trustlet_buffer_t.get_set_same h3 hgid]
    · rw [trustlet_buffer_t.get_set_other .fid h5 (by decide),
        trustlet_buffer_t.get_set_same h4 hfid]
    · rw [trustlet_buffer_t.get_set_same h5 hsize]
  · intro f g v hfg
    obtain ⟨b', hb'⟩ := trustlet_buffer_t.set_isSome api.mLockedBuffer p f v hp
    exact ⟨b', hb', trustlet_buffer_t.get_set_other g hb' hfg⟩

/-- Witness of C1: the request view of a zeroed buffer of `BufferSize()` bytes, an `Enroll`
header. -/
theorem header_round_trip_witness :
    API.BufferSize ≤ zeroedAPI.mLockedBuffer.length ∧
    ((∃ b1 b2 b3 b4 b5 : Buffer,
      trustlet_buffer_t.set zeroedAPI.mLockedBuffer 0x5c .process 7
        = some b1 ∧
      trustlet_buffer_t.set b1 0x5c .command CommandId.Enroll.toUInt32 = some b2 ∧
      trustlet_buffer_t.set b2 0x5c .gid 1 = some b3 ∧
      trustlet_buffer_t.set b3 0x5c .fid 2 = some b4 ∧
      trustlet_buffer_t.set b4 0x5c .buffer_size 0 = some b5 ∧
      trustlet_buffer_t.get b5 0x5c .process = some 7 ∧
      trustlet_buffer_t.get b5 0x5c .command = some CommandId.Enroll.toUInt32 ∧
      (trustlet_buffer_t.get b5 0x5c .command).bind CommandId.ofUInt32 = some .Enroll ∧
      trustlet_buffer_t.get b5 0x5c .gid = some 1 ∧
      trustlet_buffer_t.get b5 0x5c .fid = some 2 ∧
      trustlet_buffer_t.get b5 0x5c .buffer_size = some 0) ∧
    (∀ (f g : HeaderField) (v : Nat), f ≠ g →
      ∃ b' : Buffer,
        trustlet_buffer_t.set zeroedAPI.mLockedBuffer 0x5c f v = some b' ∧
        trustlet_buffer_t.get b' 0x5c g =
          trustlet_buffer_t.get zeroedAPI.mLockedBuffer 0x5c g)) :=
  ⟨by decide, header_round_trip zeroedAPI 0x5c (Or.inl rfl) .Enroll 7 1 2 0
    (by decide) (by decide) (by decide) (by decide) (by decide)⟩

/-- C2 (header isolation). Assigning any field of the request header, when the store is
inside the buffer, leaves every byte of the 32-byte envelope at offset 0 and of the 20-byte
response header at offset 0x14 as it was; assigning any field of the envelope or of the
response header leaves every byte of the request header (offsets 0x5c to 0x6f) as it was;
the same holds of any store of bytes that stays inside the request header, and of any
store that stays inside the envelope and the response header (offsets below 0x28); and in
a buffer of at least `BufferSize()` bytes all the field stores are inside the buffer. -/
theorem header_isolation (api : API) (v : Nat) :
    (∀ (f : HeaderField) (b' : Buffer),
      trustlet_buffer_t.set api.mLockedBuffer api.GetRequest f v = some b' →
      ∀ i : Nat, (i < 0x20 ∨ (0x14 ≤ i ∧ i < 0x14 + 20)) → b'[i]? = api.mLockedBuffer[i]?) ∧
    (∀ (f : BaseField) (b' : Buffer),
      base_transaction_t.set api.mLockedBuffer api.Base f v = some b' →
      ∀ i : Nat, 0x5c ≤ i → i < 0x5c + 20 → b'[i]? = api.mLockedBuffer[i]?) ∧
    (∀ (f : HeaderField) (b' : Buffer),
      trustlet_buffer_t.set api.mLockedBuffer api.GetResponse f v = some b' →
      ∀ i : Nat, 0x5c ≤ i → i < 0x5c + 20 → b'[i]? = api.mLockedBuffer[i]?) ∧
    (∀ (a : Nat) (xs : List Byte) (b' : Buffer),
      writeBytes api.mLockedBuffer a xs = some b' → 0x5c ≤ a → a + xs.length ≤ 0x5c + 20 →
      ∀ i : Nat, (i < 0x20 ∨ (0x14 ≤ i ∧ i < 0x14 + 20)) → b'[i]? = api.mLockedBuffer[i]?) ∧
    (∀ (a : Nat) (xs : List Byte) (b' : Buffer),
      writeBytes api.mLockedBuffer a xs = some b' → a + xs.length ≤ 0x14 + 20 →
      ∀ i : Nat, 0x5c ≤ i → i < 0x5c + 20 → b'[i]? = api.mLockedBuffer[i]?) ∧
    (API.BufferSize ≤ api.mLockedBuffer.length →
      (∀ f : HeaderField,
        (trustlet_buffer_t.set api.mLockedBuffer api.GetRequest f v).isSome = true ∧
        (trustlet_buffer_t.set api.mLockedBuffer api.GetResponse f v).isSome = true) ∧
      (∀ f : BaseField,
        (base_transaction_t.set api.mLockedBuffer api.Base f v).isSome = true)) := by
  refine ⟨?_, ?_, ?_, ?_, ?_, ?_⟩
  · intro f b' h i hi
    apply trustlet_buffer_t.set_frame h
    simp only [API.GetRequest, API.bufferPtr, API.RequestOffset]
    omega
  · intro f b' h i h1 h2
    apply base_transaction_t.set_frame_envelope h
    simp only [API.Base, API.bufferPtr]
    omega
  · intro f b' h i h1 h2
    apply trustlet_buffer_t.set_frame h
    simp only [API.GetResponse, API.bufferPtr, API.ResponseOffset]
    omega
  · intro a xs b' h h1 h2 i hi
    exact writeBytes_getElem?_outside h (by omega)
  · intro a xs b' h h1 i h2 h3
    exact writeBytes_getElem?_outside h (by omega)
  · intro hlen
    rw [API.BufferSize_eq] at hlen
    refine ⟨fun f => ⟨?_, ?_⟩, fun f => ?_⟩
    · obtain ⟨b', hb'⟩ := trustlet_buffer_t.set_isSome api.mLockedBuffer api.GetRequest f v
        (by simp only [API.GetRequest, API.bufferPtr, API.RequestOffset]; omega)
      rw [hb']; rfl
    · obtain ⟨b', hb'⟩ := trustlet_buffer_t.set_isSome api.mLockedBuffer api.GetResponse f v
        (by simp only [API.GetResponse, API.bufferPtr, API.ResponseOffset]; omega)
      rw [hb']; rfl
    · obtain ⟨b', hb'⟩ := store32_isSome (b := api.mLockedBuffer) (a := api.Base + f.offset)
        (v := v) (by have := f.offset_in_envelope; simp only [API.Base, API.bufferPtr]; omega)
      rw [base_transaction_t.set, hb']; rfl

/-- Witness of C2: every header and envelope store fits a zeroed buffer of `BufferSize()`
bytes. -/
theorem header_isolation_witness :
    API.BufferSize ≤ zeroedAPI.mLockedBuffer.length ∧
    ((∀ f : HeaderField,
      (trustlet_buffer_t.set zeroedAPI.mLockedBuffer zeroedAPI.GetRequest f 0xffffffff).isSome
        = true ∧
      (trustlet_buffer_t.set zeroedAPI.mLockedBuffer zeroedAPI.GetResponse f 0xffffffff).isSome
        = true) ∧
    (∀ f : BaseField,
      (base_transaction_t.set zeroedAPI.mLockedBuffer zeroedAPI.Base f 0xffffffff).isSome
        = true)) :=
  ⟨by decide, (header_isolation zeroedAPI 0xffffffff).2.2.2.2.2 (by decide)⟩

/-- C3 as stated fails: on a buffer of `BufferSize()` bytes whose response header starts
with the byte 1 and whose request header is zero, `MoveResponseToRequest()` succeeds, and
the response payload byte `data[52]` (buffer offset 0x14 + 20 + 52 = 0x5c, inside the
buffer) reads 0 before the call and 1 after it. -/
theorem moveResponseToRequest_changes_response_data_52 :
    trustlet_buffer_t.dataAddr responseMarkedAPI.GetResponse 52
      < responseMarkedAPI.mLockedBuffer.length ∧
    responseMarkedAPI.mLockedBuffer[trustlet_buffer_t.dataAddr
      responseMarkedAPI.GetResponse 52]? = some 0 ∧
    responseMarkedAPI.MoveResponseToRequest.map (fun api' =>
      api'.mLockedBuffer[trustlet_buffer_t.dataAddr api'.GetResponse 52]?) = some (some 1) := by
  decide

/-- C3, amended. On every buffer of at least `BufferSize()` bytes `MoveResponseToRequest()`
is defined, and whenever it is defined, the request payload byte `data[i]` (offset
0x5c + 20 + i) is the same after the call as before it for every `i`, and so is the response
payload byte `data[i]` (offset 0x14 + 20 + i) for every `i` below 52 and every `i` from 72
on. -/
theorem moveResponseToRequest_payload_untouched (api : API) :
    (API.BufferSize ≤ api.mLockedBuffer.length → api.MoveResponseToRequest.isSome = true) ∧
    (∀ api' : API, api.MoveResponseToRequest = some api' → ∀ i : Nat,
      api'.mLockedBuffer[trustlet_buffer_t.dataAddr api'.GetRequest i]? =
        api.mLockedBuffer[trustlet_buffer_t.dataAddr api.GetRequest i]? ∧
      (i < 52 ∨ 72 ≤ i →
        api'.mLockedBuffer[trustlet_buffer_t.dataAddr api'.GetResponse i]? =
          api.mLockedBuffer[trustlet_buffer_t.dataAddr api.GetResponse i]?)) := by
  constructor
  · intro hlen
    rw [API.BufferSize_eq] at hlen
    obtain ⟨api', h⟩ := API.MoveResponseToRequest_isSome api (by omega)
    rw [h]; rfl
  · intro api' h i
    have hm := API.MoveResponseToRequest_some_iff.mp h
    have hd : trustlet_buffer_t.offsetof .data = 20 := by decide
    simp only [trustlet_buffer_t.dataAddr, API.GetRequest, API.GetResponse, API.bufferPtr,
      API.RequestOffset, API.ResponseOffset, hd]
    constructor
    · rw [memmove_getElem? hm, if_neg (by omega)]
    · intro hi
      rw [memmove_getElem? hm, if_neg (by omega)]

/-- Witness of C3, amended: the call on the marked buffer, at payload index 51. -/
theorem moveResponseToRequest_payload_untouched_witness :
    ∃ api' : API, responseMarkedAPI.MoveResponseToRequest = some api' ∧
      api'.mLockedBuffer[trustlet_buffer_t.dataAddr api'.GetRequest 51]? =
        responseMarkedAPI.mLockedBuffer[trustlet_buffer_t.dataAddr
          responseMarkedAPI.GetRequest 51]? ∧
      api'.mLockedBuffer[trustlet_buffer_t.dataAddr api'.GetResponse 51]? =
        responseMarkedAPI.mLockedBuffer[trustlet_buffer_t.dataAddr
          responseMarkedAPI.GetResponse 51]? := by
  obtain ⟨api', h⟩ := Option.isSome_iff_exists.mp
    ((moveResponseToRequest_payload_untouched responseMarkedAPI).1 (by decide))
  have hw := (moveResponseToRequest_payload_untouched responseMarkedAPI).2 api' h 51
  exact ⟨api', h, hw.1, hw.2 (Or.inl (by decide))⟩

/-- C4 (verbatim header copy). On a buffer `b` of at least 0x70 bytes
`MoveResponseToRequest()` is defined and yields `b` with the bytes at offsets 0x5c to 0x6f
replaced by the bytes `b` has at offsets 0x14 to 0x27, every other byte as in `b`; so each
of the five fields read through `GetRequest()` afterwards is what `GetResponse()` read
before, and the response header reads as before. -/
theorem moveResponseToRequest_copies_header (api : API)
    (hlen : 0x70 ≤ api.mLockedBuffer.length) :
    ∃ api' : API, api.MoveResponseToRequest = some api' ∧
      api'.mLockedBuffer =
        api.mLockedBuffer.take 0x5c ++ (api.mLockedBuffer.drop 0x14).take 20 ++
          api.mLockedBuffer.drop 0x70 ∧
      api'.mLockedBuffer.length = api.mLockedBuffer.length ∧
      (∀ i : Nat, 0x5c ≤ i → i < 0x70 →
        api'.mLockedBuffer[i]? = api.mLockedBuffer[i - 0x5c + 0x14]?) ∧
      (∀ i : Nat, i < 0x5c ∨ 0x70 ≤ i → api'.mLockedBuffer[i]? = api.mLockedBuffer[i]?) ∧
      (∀ f : HeaderField,
        trustlet_buffer_t.get api'.mLockedBuffer api'.GetRequest f =
          trustlet_buffer_t.get api.mLockedBuffer api.GetResponse f) ∧
      (∀ f : HeaderField,
        trustlet_buffer_t.get api'.mLockedBuffer api'.GetResponse f =
          trustlet_buffer_t.get api.mLockedBuffer api.GetResponse f) ∧
      (∀ f : HeaderField,
        (trustlet_buffer_t.get api.mLockedBuffer api.GetResponse f).isSome = true) := by
  obtain ⟨api', h⟩ := API.MoveResponseToRequest_isSome api hlen
  have hm := API.MoveResponseToRequest_some_iff.mp h
  have hl := memmove_length hm
  have hin : ∀ i : Nat, 0x5c ≤ i → i < 0x70 →
      api'.mLockedBuffer[i]? = api.mLockedBuffer[i - 0x5c + 0x14]? := by
    intro i h1 h2
    rw [memmove_getElem? hm, if_pos (by omega)]
    congr 1
    omega
  have hout : ∀ i : Nat, i < 0x5c ∨ 0x70 ≤ i →
      api'.mLockedBuffer[i]? = api.mLockedBuffer[i]? := by
    intro i hi
    rw [memmove_getElem? hm, if_neg (by omega)]
  refine ⟨api', h, (memmove_some_iff.mp hm).2.2, hl, hin, hout, ?_, ?_, ?_⟩
  · intro f
    have hf := f.offset_in_header
    simp only [trustlet_buffer_t.get, load32, readBytes, API.GetRequest, API.GetResponse,
      API.bufferPtr, API.RequestOffset, API.ResponseOffset, hl]
    rw [if_pos (by omega), if_pos (by omega)]
    congr 2
    apply List.ext_getElem?
    intro j
    rw [List.getElem?_take, List.getElem?_take, List.getElem?_drop, List.getElem?_drop]
    split
    · rw [hin _ (by omega) (by omega)]
      congr 1
      omega
    · rfl
  · intro f
    have hf := f.offset_in_header
    apply load32_congr hl
    intro i h1 h2
    apply hout
    simp only [API.GetResponse, API.bufferPtr, API.ResponseOffset] at h1 h2
    omega
  · intro f
    have hf := f.offset_in_header
    obtain ⟨v, hv⟩ := load32_isSome (b := api.mLockedBuffer)
      (a := api.GetResponse + f.offset)
      (by simp only [API.GetResponse, API.bufferPtr, API.ResponseOffset]; omega)
    rw [trustlet_buffer_t.get, hv]; rfl

/-- Witness of C4: the call on the marked buffer of `BufferSize()` bytes. -/
theorem moveResponseToRequest_copies_header_witness :
    0x70 ≤ responseMarkedAPI.mLockedBuffer.length ∧
    ∃ api' : API, responseMarkedAPI.MoveResponseToRequest = some api' ∧
      trustlet_buffer_t.get api'.mLockedBuffer api'.GetRequest .process = some 1 := by
  refine ⟨by decide, ?_⟩
  obtain ⟨api', h, _, _, _, _, hreq, _, _⟩ :=
    moveResponseToRequest_copies_header responseMarkedAPI (by decide)
  exact ⟨api', h, by rw [hreq]; decide⟩

/-- C5 (buffer size). `BufferSize()` is `sizeof(trustlet_buffer_t)` plus the larger of
`RequestOffset` and `ResponseOffset`; with the offsets 0x5c and 0x14 and the header of 20
bytes that is 0x70 = 112 bytes. -/
theorem bufferSize_value :
    API.BufferSize = trustlet_buffer_t.sizeof + max API.RequestOffset API.ResponseOffset ∧
    API.RequestOffset = 0x5c ∧ API.ResponseOffset = 0x14 ∧ trustlet_buffer_t.sizeof = 20 ∧
    API.BufferSize = 0x70 ∧ API.BufferSize = 112 := by
  decide

/-- C6 (both headers fit). For a header size `h` (a `sizeof`, below 2^63) and offsets `r`
and `s` (`int` constants, below 2^31), the `size_t` expression of `BufferSize()` does not
wrap: it is `h + max r s`, it is at least `r + h` and at least `s + h`, it equals
`max (r + h) (s + h)`, and no smaller size holds both headers. With the configured
offsets, every byte offset of the request header (0x5c to 0x6f) and of the response header
(0x14 to 0x27) is below `BufferSize()`, and in a buffer of `BufferSize()` bytes every read
and every assignment of a field through `GetRequest()` or `GetResponse()` is inside the
buffer. -/
theorem bufferSize_headers_fit :
    (∀ h r s : Nat, h < 2 ^ 63 → r < 2 ^ 31 → s < 2 ^ 31 →
      API.bufferSizeOf h r s = h + max r s ∧
      r + h ≤ API.bufferSizeOf h r s ∧ s + h ≤ API.bufferSizeOf h r s ∧
      API.bufferSizeOf h r s = max (r + h) (s + h) ∧
      ∀ n : Nat, r + h ≤ n → s + h ≤ n → API.bufferSizeOf h r s ≤ n) ∧
    (∀ i : Nat, (0x5c ≤ i ∧ i < 0x5c + 20) ∨ (0x14 ≤ i ∧ i < 0x14 + 20) →
      i < API.BufferSize) ∧
    (∀ api : API, api.mLockedBuffer.length = API.BufferSize →
      ∀ (f : HeaderField) (v : Nat),
        (trustlet_buffer_t.get api.mLockedBuffer api.GetRequest f).isSome = true ∧
        (trustlet_buffer_t.get api.mLockedBuffer api.GetResponse f).isSome = true ∧
        (trustlet_buffer_t.set api.mLockedBuffer api.GetRequest f v).isSome = true ∧
        (trustlet_buffer_t.set api.mLockedBuffer api.GetResponse f v).isSome = true) := by
  refine ⟨?_, ?_, ?_⟩
  · intro h r s hh hr hs
    have hb : API.bufferSizeOf h r s = h + max r s := by
      unfold API.bufferSizeOf SIZE_BITS
      apply Nat.mod_eq_of_lt
      have : max r s < 2 ^ 31 := max_lt hr hs
      omega
    rw [hb]
    refine ⟨rfl, by omega, by omega, by omega, fun n h1 h2 => by omega⟩
  · intro i hi
    rw [API.BufferSize_eq]
    omega
  · intro api hlen f v
    rw [API.BufferSize_eq] at hlen
    have hf := f.offset_in_header
    have hreq : api.GetRequest = 0x5c := rfl
    have hres : api.GetResponse = 0x14 := rfl
    obtain ⟨v1, h1⟩ := load32_isSome (b := api.mLockedBuffer)
      (a := api.GetRequest + f.offset) (by rw [hreq]; omega)
    obtain ⟨v2, h2⟩ := load32_isSome (b := api.mLockedBuffer)
      (a := api.GetResponse + f.offset) (by rw [hres]; omega)
    obtain ⟨b3, h3⟩ := trustlet_buffer_t.set_isSome api.mLockedBuffer api.GetRequest f v
      (by rw [hreq]; omega)
    obtain ⟨b4, h4⟩ := trustlet_buffer_t.set_isSome api.mLockedBuffer api.GetResponse f v
      (by rw [hres]; omega)
    rw [trustlet_buffer_t.get, trustlet_buffer_t.get, h1, h2, h3, h4]
    exact ⟨rfl, rfl, rfl, rfl⟩

/-- Witness of C6: the configured header size and offsets, and the zeroed buffer. -/
theorem bufferSize_headers_fit_witness :
    (trustlet_buffer_t.sizeof < 2 ^ 63 ∧ API.RequestOffset < 2 ^ 31 ∧
      API.ResponseOffset < 2 ^ 31) ∧
    API.RequestOffset + trustlet_buffer_t.sizeof ≤
      API.bufferSizeOf trustlet_buffer_t.sizeof API.RequestOffset API.ResponseOffset ∧
    API.ResponseOffset + trustlet_buffer_t.sizeof ≤
      API.bufferSizeOf trustlet_buffer_t.sizeof API.RequestOffset API.ResponseOffset ∧
    (trustlet_buffer_t.get zeroedAPI.mLockedBuffer zeroedAPI.GetRequest .buffer_size).isSome
      = true :=
  ⟨by decide,
    (bufferSize_headers_fit.1 trustlet_buffer_t.sizeof API.RequestOffset API.ResponseOffset
      (by decide) (by decide) (by decide)).2.1,
    (bufferSize_headers_fit.1 trustlet_buffer_t.sizeof API.RequestOffset API.ResponseOffset
      (by decide) (by decide) (by decide)).2.2.1,
    (bufferSize_headers_fit.2.2 zeroedAPI (by decide) .buffer_size 0).1⟩

/-- C7 (`PrepareBase` clears and fills the envelope). On a buffer of at least 32 bytes and
for a 32-bit `p`, `PrepareBase(p)` is defined and returns the reference `Base()`;
afterwards the envelope reads `process_id` = `p` and 0 in `no_extra_buffer`, `unk0`,
`extra_buffer_size`, `ret_val`, `unk1`, `unk2` and `extra_flags`, whatever it held before,
and every byte at offset 0x20 or above is as it was. -/
theorem prepareBase_clears_and_fills (api : API) (p : Nat) (hp : p < 2 ^ 32)
    (hlen : 32 ≤ api.mLockedBuffer.length) :
    ∃ api' : API, api.PrepareBase p = some (api', api.Base) ∧
      api'.mLockedBuffer.length = api.mLockedBuffer.length ∧
      base_transaction_t.get api'.mLockedBuffer api'.Base .process_id = some p ∧
      base_transaction_t.get api'.mLockedBuffer api'.Base .no_extra_buffer = some 0 ∧
      base_transaction_t.get api'.mLockedBuffer api'.Base .unk0 = some 0 ∧
      base_transaction_t.get api'.mLockedBuffer api'.Base .extra_buffer_size = some 0 ∧
      base_transaction_t.get api'.mLockedBuffer api'.Base .ret_val = some 0 ∧
      base_transaction_t.get api'.mLockedBuffer api'.Base .unk1 = some 0 ∧
      base_transaction_t.get api'.mLockedBuffer api'.Base .unk2 = some 0 ∧
      base_transaction_t.get api'.mLockedBuffer api'.Base .extra_flags = some 0 ∧
      (∀ i : Nat, 0x20 ≤ i → api'.mLockedBuffer[i]? = api.mLockedBuffer[i]?) := by
  obtain ⟨b1, h1⟩ := memset_isSome api.mLockedBuffer 0 0 32 (by omega)
  have l1 := memset_length h1
  obtain ⟨b2, h2⟩ := store32_isSome (b := b1) (a := 0) (v := p) (by omega)
  have l2 := store32_length h2
  have hz : ∀ f : BaseField, f ≠ .process_id →
      base_transaction_t.get b2 0 f = some 0 := by
    intro f hf
    have hlo : 4 ≤ f.offset := by
      cases f <;> first | exact absurd rfl hf | decide
    have hhi := f.offset_in_envelope
    rw [base_transaction_t.get, load32_store32_disjoint h2 (by omega)]
    apply load32_zero (by omega)
    intro i hi1 hi2
    rw [memset_getElem? h1, if_pos (by omega)]
    rfl
  refine ⟨⟨b2⟩, ?_, by rw [l2, l1], ?_, hz _ (by decide), hz _ (by decide),
    hz _ (by decide), hz _ (by decide), hz _ (by decide), hz _ (by decide),
    hz _ (by decide), ?_⟩
  · rw [API.PrepareBase_eq, h1, Option.some_bind, h2, Option.some_bind]
    rfl
  · have h := load32_store32_same h2
    rw [Nat.mod_eq_of_lt hp] at h
    exact h
  · intro i hi
    show b2[i]? = api.mLockedBuffer[i]?
    rw [store32_getElem?_outside h2 (by omega), memset_getElem? h1, if_neg (by omega)]

/-- Witness of C7: `PrepareBase(0x12345678)` on a buffer whose bytes are all 0xff. -/
theorem prepareBase_clears_and_fills_witness :
    (0x12345678 < 2 ^ 32 ∧ 32 ≤ dirtyAPI.mLockedBuffer.length) ∧
    ∃ api' : API, dirtyAPI.PrepareBase 0x12345678 = some (api', dirtyAPI.Base) ∧
      base_transaction_t.get api'.mLockedBuffer api'.Base .process_id = some 0x12345678 ∧
      base_transaction_t.get api'.mLockedBuffer api'.Base .extra_flags = some 0 ∧
      api'.mLockedBuffer[0x20]? = dirtyAPI.mLockedBuffer[0x20]? := by
  refine ⟨by decide, ?_⟩
  obtain ⟨api', h, _, hpid, _, _, _, _, _, _, hflags, hrest⟩ :=
    prepareBase_clears_and_fills dirtyAPI 0x12345678 (by decide) (by decide)
  exact ⟨api', h, hpid, hflags, hrest 0x20 (Nat.le_refl _)⟩

/-- C8 (header wire layout). `trustlet_buffer_t` is 20 bytes: `process` at offset 0,
`command` at 4, `gid` at 8, `fid` at 12, `buffer_size` at 16, each of 4 bytes, and the
inline `data[]` from offset 20; `GetRequest()` views it at the buffer base + 0x5c and
`GetResponse()` at the buffer base + 0x14. -/
theorem trustlet_buffer_t_layout (api : API) :
    trustlet_buffer_t.sizeof = 20 ∧
    trustlet_buffer_t.members.map (fun m => (trustlet_buffer_t.offsetof m.1, m.2.size)) =
      [(0, 4), (4, 4), (8, 4), (12, 4), (16, 4), (20, 0)] ∧
    trustlet_buffer_t.members.map Prod.fst =
      [.process, .command, .gid, .fid, .buffer_size, .data] ∧
    HeaderField.process.offset = 0 ∧ HeaderField.command.offset = 4 ∧
    HeaderField.gid.offset = 8 ∧ HeaderField.fid.offset = 12 ∧
    HeaderField.buffer_size.offset = 16 ∧
    (∀ p i : Nat, trustlet_buffer_t.dataAddr p i = p + 20 + i) ∧
    api.GetRequest = api.bufferPtr + 0x5c ∧ api.GetResponse = api.bufferPtr + 0x14 ∧
    api.Base = api.bufferPtr := by
  refine ⟨by decide, by decide, by decide, by decide, by decide, by decide, by decide,
    by decide, fun p i => rfl, rfl, rfl, rfl⟩

/-- C9 (envelope wire layout). `base_transaction_t` is 32 bytes at the buffer base:
`process_id` at offset 0x0, `no_extra_buffer` at 0x4, `unk0` at 0x8, `extra_buffer_size`
at 0xc, `ret_val` at 0x10, then the union at 0x14 holding either `unk1` (0x14), `unk2`
(0x18), `extra_flags` (0x1c) or the inline `data[]` from 0x14 on, so that `data[8 + k]` is
the byte `k` of `extra_flags`. -/
theorem base_transaction_t_layout (api : API) :
    base_transaction_t.sizeof = 0x20 ∧ api.Base = api.bufferPtr ∧ api.bufferPtr = 0 ∧
    BaseField.process_id.offset = 0x0 ∧ BaseField.no_extra_buffer.offset = 0x4 ∧
    BaseField.unk0.offset = 0x8 ∧ BaseField.extra_buffer_size.offset = 0xc ∧
    BaseField.ret_val.offset = 0x10 ∧ BaseField.unk1.offset = 0x14 ∧
    BaseField.unk2.offset = 0x18 ∧ BaseField.extra_flags.offset = 0x1c ∧
    base_transaction_t.dataOffset = 0x14 ∧
    base_transaction_t.members.map (fun m => m.2.size) = [4, 4, 4, 4, 4, 12] ∧
    base_transaction_t.anonStruct.map (fun m => m.2.size) = [4, 4, 4] ∧
    (∀ p k : Nat,
      base_transaction_t.dataAddr p (8 + k) = p + BaseField.extra_flags.offset + k) := by
  refine ⟨by decide, rfl, rfl, by decide, by decide, by decide, by decide, by decide,
    by decide, by decide, by decide, by decide, by decide, by decide, fun p k => ?_⟩
  have h1 : base_transaction_t.dataOffset = 0x14 := by decide
  have h2 : BaseField.extra_flags.offset = 0x1c := by decide
  rw [base_transaction_t.dataAddr, h1, h2]
  omega

/-- C10 (`CommandId` wire values). The 19 opcodes have the 32-bit values of the header;
no two opcodes share a value, and reading the stored value of an opcode back as a
`CommandId` gives that opcode (and a value decodes to an opcode only if it is its value). -/
theorem commandId_wire_values :
    CommandId.SetMasterKey.toUInt32 = 0 ∧ CommandId.InitializeAlgo.toUInt32 = 1 ∧
    CommandId.InitializeSensor.toUInt32 = 2 ∧ CommandId.Calibrate.toUInt32 = 6 ∧
    CommandId.GetImage.toUInt32 = 0x8 ∧ CommandId.InitializeEnroll.toUInt32 = 0xb ∧
    CommandId.Enroll.toUInt32 = 0xc ∧ CommandId.FinalizeEnroll.toUInt32 = 0xd ∧
    CommandId.SaveEnrolledPrint.toUInt32 = 0xe ∧ CommandId.GetPrintIds.toUInt32 = 0x16 ∧
    CommandId.SetWorkMode.toUInt32 = 0x17 ∧ CommandId.SetUserDataPath.toUInt32 = 0x18 ∧
    CommandId.SetDataPath.toUInt32 = 0x19 ∧ CommandId.CheckSecureId.toUInt32 = 0x1e ∧
    CommandId.CheckAuthToken.toUInt32 = 0x1f ∧ CommandId.GetAuthenticatorId.toUInt32 = 0x20 ∧
    CommandId.IsFingerLost.toUInt32 = 0x25 ∧ CommandId.OpenSpi.toUInt32 = 0x29 ∧
    CommandId.CloseSpi.toUInt32 = 0x2a ∧
    CommandId.all.length = 19 ∧ (∀ c : CommandId, c ∈ CommandId.all) ∧
    (∀ c : CommandId, c.toUInt32 < 2 ^ 32) ∧
    Function.Injective CommandId.toUInt32 ∧
    (∀ c : CommandId, CommandId.ofUInt32 c.toUInt32 = some c) ∧
    (∀ (v : Nat) (c : CommandId), CommandId.ofUInt32 v = some c ↔ c.toUInt32 = v) := by
  refine ⟨rfl, rfl, rfl, rfl, rfl, rfl, rfl, rfl, rfl, rfl, rfl, rfl, rfl, rfl, rfl, rfl,
    rfl, rfl, rfl, rfl, ?_, CommandId.toUInt32_lt, ?_, CommandId.ofUInt32_toUInt32, ?_⟩
  · intro c
    cases c <;> decide
  · intro a b h
    have h2 := congrArg CommandId.ofUInt32 h
    rw [CommandId.ofUInt32_toUInt32, CommandId.ofUInt32_toUInt32] at h2
    exact Option.some.inj h2
  · intro v c
    constructor
    · intro h
      have := List.find?_some h
      exact beq_iff_eq.mp this
    · rintro rfl
      exact CommandId.ofUInt32_toUInt32 c

/-! ## Further lemmas on `PrepareBase` and byte stores -/

theorem API.PrepareBase_steps (api : API) (process : Nat)
    (hlen : 32 ≤ api.mLockedBuffer.length) :
    ∃ b1 b2 : Buffer, memset api.mLockedBuffer 0 0 32 = some b1 ∧
      store32 b1 0 process = some b2 ∧
      api.PrepareBase process = some (⟨b2⟩, api.Base) := by
  obtain ⟨b1, h1⟩ := memset_isSome api.mLockedBuffer 0 0 32 (by omega)
  have l1 := memset_length h1
  obtain ⟨b2, h2⟩ := store32_isSome (b := b1) (a := 0) (v := process) (by omega)
  refine ⟨b1, b2, h1, h2, ?_⟩
  rw [API.PrepareBase_eq, h1, Option.some_bind, h2, Option.some_bind]
  rfl

theorem getElem?_bytesOfU32_some (v k : Nat) (hk : k < 4) :
    ∃ x : Byte, (bytesOfU32 v)[k]? = some x := by
  have hk' : k = 0 ∨ k = 1 ∨ k = 2 ∨ k = 3 := by omega
  rcases hk' with rfl | rfl | rfl | rfl <;> exact ⟨_, rfl⟩

/-! ## The claims, continued -/

/-- C13 (`PrepareBase` overwrites part of the response header). On every buffer on which
`PrepareBase(p)` is defined (at least 32 bytes), for every `p`: afterwards the fields
`process`, `command` and `gid` read through `GetResponse()` are 0, so `command` reads as
`SetMasterKey`, whatever they held before, while `fid` and `buffer_size` read through
`GetResponse()` (bytes 0x20 to 0x27) are what they were. -/
theorem prepareBase_overwrites_response_header (api : API) (p : Nat)
    (hlen : 32 ≤ api.mLockedBuffer.length) :
    ∃ api' : API, api.PrepareBase p = some (api', api.Base) ∧
      trustlet_buffer_t.get api'.mLockedBuffer api'.GetResponse .process = some 0 ∧
      trustlet_buffer_t.get api'.mLockedBuffer api'.GetResponse .command = some 0 ∧
      (trustlet_buffer_t.get api'.mLockedBuffer api'.GetResponse .command).bind
        CommandId.ofUInt32 = some .SetMasterKey ∧
      trustlet_buffer_t.get api'.mLockedBuffer api'.GetResponse .gid = some 0 ∧
      trustlet_buffer_t.get api'.mLockedBuffer api'.GetResponse .fid =
        trustlet_buffer_t.get api.mLockedBuffer api.GetResponse .fid ∧
      trustlet_buffer_t.get api'.mLockedBuffer api'.GetResponse .buffer_size =
        trustlet_buffer_t.get api.mLockedBuffer api.GetResponse .buffer_size ∧
      (∀ i : Nat, 0x20 ≤ i → i < 0x28 → api'.mLockedBuffer[i]? = api.mLockedBuffer[i]?) := by
  obtain ⟨b1, b2, h1, h2, hprep⟩ := API.PrepareBase_steps api p hlen
  have l1 := memset_length h1
  have l2 := store32_length h2
  have hzero : ∀ a : Nat, 4 ≤ a → a + 4 ≤ 32 → load32 b2 a = some 0 := by
    intro a ha1 ha2
    rw [load32_store32_disjoint h2 (by omega)]
    apply load32_zero (by omega)
    intro i hi1 hi2
    rw [memset_getElem? h1, if_pos (by omega)]
    rfl
  have hkeep : ∀ i : Nat, 0x20 ≤ i → b2[i]? = api.mLockedBuffer[i]? := by
    intro i hi
    rw [store32_getElem?_outside h2 (by omega), memset_getElem? h1, if_neg (by omega)]
  have hsame : ∀ a : Nat, 0x20 ≤ a → load32 b2 a = load32 api.mLockedBuffer a := by
    intro a ha
    exact load32_congr (by rw [l2, l1]) (fun i hi1 _ => hkeep i (by omega))
  have hproc : trustlet_buffer_t.get b2 0x14 .process = some 0 :=
    hzero 0x14 (by decide) (by decide)
  have hcmd : trustlet_buffer_t.get b2 0x14 .command = some 0 :=
    hzero 0x18 (by decide) (by decide)
  have hgid : trustlet_buffer_t.get b2 0x14 .gid = some 0 :=
    hzero 0x1c (by decide) (by decide)
  have hfid : trustlet_buffer_t.get b2 0x14 .fid =
      trustlet_buffer_t.get api.mLockedBuffer 0x14 .fid := hsame 0x20 (by decide)
  have hsize : trustlet_buffer_t.get b2 0x14 .buffer_size =
      trustlet_buffer_t.get api.mLockedBuffer 0x14 .buffer_size := hsame 0x24 (by decide)
  refine ⟨⟨b2⟩, hprep, hproc, hcmd, ?_, hgid, hfid, hsize, fun i hi _ => hkeep i hi⟩
  show (trustlet_buffer_t.get b2 0x14 .command).bind CommandId.ofUInt32 = some .SetMasterKey
  rw [hcmd]
  rfl

/-- Witness of C13: `PrepareBase(0x12345678)` on a buffer whose bytes are all 0xff, where
the response `process` read 0xffffffff before. -/
theorem prepareBase_overwrites_response_header_witness :
    32 ≤ dirtyAPI.mLockedBuffer.length ∧
    trustlet_buffer_t.get dirtyAPI.mLockedBuffer dirtyAPI.GetResponse .process
      = some 0xffffffff ∧
    ∃ api' : API, dirtyAPI.PrepareBase 0x12345678 = some (api', dirtyAPI.Base) ∧
      trustlet_buffer_t.get api'.mLockedBuffer api'.GetResponse .process = some 0 ∧
      trustlet_buffer_t.get api'.mLockedBuffer api'.GetResponse .fid = some 0xffffffff := by
  refine ⟨by decide, by decide, ?_⟩
  obtain ⟨api', h, hproc, _, _, _, hfid, _, _⟩ :=
    prepareBase_overwrites_response_header dirtyAPI 0x12345678 (by decide)
  exact ⟨api', h, hproc, by rw [hfid]; decide⟩

/-- C14 (no inline request capacity inside `BufferSize()`). `RequestOffset` plus
`sizeof(trustlet_buffer_t)` is exactly `BufferSize()`, so the request's `data[0]` is at
offset 0x70 = `BufferSize()`; in a buffer of exactly `BufferSize()` bytes no byte is left
for the request payload, and for every `i` the byte `data[i]` of the request lies outside
the buffer: reading it and storing to it have no defined result. -/
theorem request_has_no_inline_capacity (api : API)
    (hlen : api.mLockedBuffer.length = API.BufferSize) :
    API.RequestOffset + trustlet_buffer_t.sizeof = API.BufferSize ∧
    trustlet_buffer_t.dataAddr api.GetRequest 0 = 0x70 ∧
    trustlet_buffer_t.dataAddr api.GetRequest 0 = API.BufferSize ∧
    api.mLockedBuffer.length - trustlet_buffer_t.dataAddr api.GetRequest 0 = 0 ∧
    (∀ i : Nat,
      api.mLockedBuffer.length ≤ trustlet_buffer_t.dataAddr api.GetRequest i ∧
      api.mLockedBuffer[trustlet_buffer_t.dataAddr api.GetRequest i]? = none ∧
      readBytes api.mLockedBuffer (trustlet_buffer_t.dataAddr api.GetRequest i) 1 = none ∧
      ∀ x : Byte,
        writeBytes api.mLockedBuffer (trustlet_buffer_t.dataAddr api.GetRequest i) [x]
          = none) := by
  have hd : ∀ i : Nat, trustlet_buffer_t.dataAddr api.GetRequest i = 0x70 + i := by
    intro i
    have h20 : trustlet_buffer_t.offsetof .data = 20 := by decide
    simp only [trustlet_buffer_t.dataAddr, API.GetRequest, API.bufferPtr, API.RequestOffset,
      h20]
  rw [API.BufferSize_eq] at hlen
  refine ⟨by decide, hd 0, by rw [hd 0, API.BufferSize_eq], by rw [hd 0, hlen], ?_⟩
  intro i
  rw [hd i]
  refine ⟨by omega, List.getElem?_eq_none (by omega), ?_, fun x => ?_⟩
  · unfold readBytes
    rw [if_neg (by omega)]
  · unfold writeBytes
    rw [if_neg (by simp only [List.length_cons, List.length_nil]; omega)]

/-- Witness of C14: the zeroed buffer of exactly `BufferSize()` bytes, request `data[0]`. -/
theorem request_has_no_inline_capacity_witness :
    zeroedAPI.mLockedBuffer.length = API.BufferSize ∧
    zeroedAPI.mLockedBuffer[trustlet_buffer_t.dataAddr zeroedAPI.GetRequest 0]? = none ∧
    zeroedAPI.mLockedBuffer[trustlet_buffer_t.dataAddr zeroedAPI.GetRequest 0 - 1]?
      = some 0 :=
  ⟨by decide, ((request_has_no_inline_capacity zeroedAPI (by decide)).2.2.2.2 0).2.1,
    by decide⟩

/-- C15 (response payload aliasing bound). The response payload starts at offset 0x28 and
the request header at 0x5c. For every payload length `n` of at most 52 bytes (such as the
32 bytes of an `enroll_result_t`) and every `i` below `n`, an assignment to any request
header field and a `MoveResponseToRequest()` leave the response payload byte `data[i]` as
it was. The bound is tight: for `i` from 52 to 71, the response payload byte `data[i]` is
the request header byte `i - 52`, a store to that byte is what `data[i]` reads afterwards,
and an assignment of `v` to the request field `f` puts the four bytes of `v` into the
response payload bytes `data[52 + offset of f ..]`. On a buffer of at least `BufferSize()`
bytes all these stores are defined. -/
theorem response_payload_aliasing_bound (api : API) :
    trustlet_buffer_t.dataAddr api.GetResponse 0 = 0x28 ∧ api.GetRequest = 0x5c ∧
    enroll_result_t.sizeof ≤ 52 ∧
    (∀ n i : Nat, n ≤ 52 → i < n →
      (∀ (f : HeaderField) (v : Nat) (b' : Buffer),
        trustlet_buffer_t.set api.mLockedBuffer api.GetRequest f v = some b' →
        b'[trustlet_buffer_t.dataAddr api.GetResponse i]? =
          api.mLockedBuffer[trustlet_buffer_t.dataAddr api.GetResponse i]?) ∧
      (∀ api' : API, api.MoveResponseToRequest = some api' →
        api'.mLockedBuffer[trustlet_buffer_t.dataAddr api'.GetResponse i]? =
          api.mLockedBuffer[trustlet_buffer_t.dataAddr api.GetResponse i]?)) ∧
    (∀ i : Nat, 52 ≤ i → i < 72 →
      trustlet_buffer_t.dataAddr api.GetResponse i = api.GetRequest + (i - 52) ∧
      (∀ (x : Byte) (b' : Buffer),
        writeBytes api.mLockedBuffer (api.GetRequest + (i - 52)) [x] = some b' →
        b'[trustlet_buffer_t.dataAddr api.GetResponse i]? = some x)) ∧
    (∀ (f : HeaderField) (v : Nat) (b' : Buffer),
      trustlet_buffer_t.set api.mLockedBuffer api.GetRequest f v = some b' →
      ∀ k : Nat, k < 4 →
        b'[trustlet_buffer_t.dataAddr api.GetResponse (52 + f.offset + k)]? =
          (bytesOfU32 v)[k]?) ∧
    (API.BufferSize ≤ api.mLockedBuffer.length →
      api.MoveResponseToRequest.isSome = true ∧
      (∀ (f : HeaderField) (v : Nat),
        (trustlet_buffer_t.set api.mLockedBuffer api.GetRequest f v).isSome = true) ∧
      (∀ (i : Nat) (x : Byte), 52 ≤ i → i < 72 →
        (writeBytes api.mLockedBuffer (api.GetRequest + (i - 52)) [x]).isSome = true)) := by
  have hd : ∀ i : Nat, trustlet_buffer_t.dataAddr api.GetResponse i = 0x28 + i := by
    intro i
    have h20 : trustlet_buffer_t.offsetof .data = 20 := by decide
    simp only [trustlet_buffer_t.dataAddr, API.GetResponse, API.bufferPtr,
      API.ResponseOffset, h20]
  have hreq : api.GetRequest = 0x5c := rfl
  refine ⟨hd 0, hreq, by decide, ?_, ?_, ?_, ?_⟩
  · intro n i hn hi
    constructor
    · intro f v b' h
      rw [hd i]
      apply trustlet_buffer_t.set_frame h
      rw [hreq]
      omega
    · intro api' h
      have hm := API.MoveResponseToRequest_some_iff.mp h
      have hd' : trustlet_buffer_t.dataAddr api'.GetResponse i = 0x28 + i := hd i
      rw [hd', hd i, memmove_getElem? hm, if_neg (by omega)]
  · intro i h1 h2
    refine ⟨by rw [hd i, hreq]; omega, ?_⟩
    intro x b' h
    rw [hd i, writeBytes_getElem? h, hreq,
      if_pos (by simp only [List.length_cons, List.length_nil]; omega)]
    have hi : 0x28 + i - (0x5c + (i - 52)) = 0 := by omega
    rw [hi]
    rfl
  · intro f v b' h k hk
    have hf := f.offset_in_header
    unfold trustlet_buffer_t.set store32 at h
    have hlen4 : (bytesOfU32 v).length = 4 := rfl
    rw [hd, writeBytes_getElem? h, hreq, hlen4, if_pos (by omega)]
    congr 1
    omega
  · intro hlen
    rw [API.BufferSize_eq] at hlen
    refine ⟨?_, ?_, ?_⟩
    · obtain ⟨api', h⟩ := API.MoveResponseToRequest_isSome api (by omega)
      rw [h]; rfl
    · intro f v
      obtain ⟨b', hb'⟩ := trustlet_buffer_t.set_isSome api.mLockedBuffer api.GetRequest f v
        (by rw [hreq]; omega)
      rw [hb']; rfl
    · intro i x h1 h2
      obtain ⟨b', hb'⟩ := writeBytes_isSome (b := api.mLockedBuffer)
        (a := api.GetRequest + (i - 52)) [x]
        (by rw [hreq]; simp only [List.length_cons, List.length_nil]; omega)
      rw [hb']; rfl

/-- Witness of C15: on the zeroed buffer, `gid` = 0xaabbccdd assigned through
`GetRequest()` leaves the response payload byte `data[51]` at 0 and makes `data[60]`, the
first byte of the request `gid`, read 0xdd. -/
theorem response_payload_aliasing_bound_witness :
    ∃ b' : Buffer,
      trustlet_buffer_t.set zeroedAPI.mLockedBuffer zeroedAPI.GetRequest .gid 0xaabbccdd
        = some b' ∧
      b'[trustlet_buffer_t.dataAddr zeroedAPI.GetResponse 51]? =
        zeroedAPI.mLockedBuffer[trustlet_buffer_t.dataAddr zeroedAPI.GetResponse 51]? ∧
      b'[trustlet_buffer_t.dataAddr zeroedAPI.GetResponse (52 + HeaderField.gid.offset + 0)]?
        = some 0xdd := by
  have hw := response_payload_aliasing_bound zeroedAPI
  obtain ⟨b', hb'⟩ :=
    Option.isSome_iff_exists.mp ((hw.2.2.2.2.2.2 (by decide)).2.1 .gid 0xaabbccdd)
  refine ⟨b', hb', ((hw.2.2.2.1 52 51 (by decide) (by decide)).1 .gid 0xaabbccdd b' hb'), ?_⟩
  rw [hw.2.2.2.2.2.1 .gid 0xaabbccdd b' hb' 0 (by decide)]
  decide

/-! ## Lemmas on `int` values and on `enroll_result_t` -/

theorem bytesOfU32_natOfBytes (xs : List Byte) (h : xs.length = 4) :
    bytesOfU32 (natOfBytes xs) = xs := by
  match xs, h with
  | [x0, x1, x2, x3], _ =>
    have h0 := x0.isLt
    have h1 := x1.isLt
    have h2 := x2.isLt
    have h3 := x3.isLt
    simp only [bytesOfU32, natOfBytes, Fin.ofNat, Nat.succ_eq_add_one]
    have e0 : (x0.val + 256 * (x1.val + 256 * (x2.val + 256 * (x3.val + 256 * 0)))) % 256
        = x0.val := by omega
    have e1 : (x0.val + 256 * (x1.val + 256 * (x2.val + 256 * (x3.val + 256 * 0)))) / 256
        % 256 = x1.val := by omega
    have e2 : (x0.val + 256 * (x1.val + 256 * (x2.val + 256 * (x3.val + 256 * 0)))) / 65536
        % 256 = x2.val := by omega
    have e3 : (x0.val + 256 * (x1.val + 256 * (x2.val + 256 * (x3.val + 256 * 0))))
        / 16777216 % 256 = x3.val := by omega
    simp only [e0, e1, e2, e3]

theorem natOfBytes_lt (xs : List Byte) (h : xs.length = 4) : natOfBytes xs < 2 ^ 32 := by
  match xs, h with
  | [x0, x1, x2, x3], _ =>
    have h0 := x0.isLt
    have h1 := x1.isLt
    have h2 := x2.isLt
    have h3 := x3.isLt
    simp only [natOfBytes]
    omega

theorem u32OfInt32_lt (v : Int) : u32OfInt32 v < 2 ^ 32 := by
  unfold u32OfInt32
  omega

theorem u32OfInt32_int32OfU32 (u : Nat) (h : u < 2 ^ 32) : u32OfInt32 (int32OfU32 u) = u := by
  unfold u32OfInt32 int32OfU32
  split <;> omega

theorem int32OfU32_u32OfInt32 (v : Int) (h : -2 ^ 31 ≤ v ∧ v < 2 ^ 31) :
    int32OfU32 (u32OfInt32 v) = v := by
  unfold u32OfInt32 int32OfU32
  split <;> omega

theorem int32OfU32_range (u : Nat) (h : u < 2 ^ 32) :
    -2 ^ 31 ≤ int32OfU32 u ∧ int32OfU32 u < 2 ^ 31 := by
  unfold int32OfU32
  split <;> omega

theorem load32_some_iff {b : Buffer} {a u : Nat} :
    load32 b a = some u ↔ ∃ xs, readBytes b a 4 = some xs ∧ natOfBytes xs = u := by
  unfold load32
  rw [Option.map_eq_some']

theorem load32_lt {b : Buffer} {a u : Nat} (h : load32 b a = some u) : u < 2 ^ 32 := by
  obtain ⟨xs, hxs, rfl⟩ := load32_some_iff.mp h
  exact natOfBytes_lt xs (readBytes_length hxs)

theorem store32_copy {b t t' : Buffer} {a q u : Nat} (hl : load32 b a = some u)
    (hs : store32 t q u = some t') (i : Nat) :
    t'[i]? = if q ≤ i ∧ i < q + 4 then b[a + (i - q)]? else t[i]? := by
  obtain ⟨xs, hxs, rfl⟩ := load32_some_iff.mp hl
  have hlen := readBytes_length hxs
  unfold store32 at hs
  rw [bytesOfU32_natOfBytes xs hlen] at hs
  rw [writeBytes_getElem? hs, hlen]
  split
  · rw [readBytes_getElem? hxs, if_pos (by omega)]
  · rfl

theorem storeInt32_copy {b t t' : Buffer} {a q u : Nat} (hl : load32 b a = some u)
    (hs : storeInt32 t q (int32OfU32 u) = some t') (i : Nat) :
    t'[i]? = if q ≤ i ∧ i < q + 4 then b[a + (i - q)]? else t[i]? := by
  unfold storeInt32 at hs
  rw [u32OfInt32_int32OfU32 u (load32_lt hl)] at hs
  exact store32_copy hl hs i

theorem storeInt32_isSome (b : Buffer) (a : Nat) (v : Int) (h : a + 4 ≤ b.length) :
    ∃ b', storeInt32 b a v = some b' :=
  store32_isSome h

theorem storeInt32_length {b b' : Buffer} {a : Nat} {v : Int}
    (h : storeInt32 b a v = some b') : b'.length = b.length :=
  store32_length h

theorem loadInt32_storeInt32_same {b b' : Buffer} {a : Nat} {v : Int}
    (h : storeInt32 b a v = some b') (hv : -2 ^ 31 ≤ v ∧ v < 2 ^ 31) :
    loadInt32 b' a = some v := by
  unfold storeInt32 at h
  rw [loadInt32, load32_store32_same h, Nat.mod_eq_of_lt (u32OfInt32_lt v), Option.map_some',
    int32OfU32_u32OfInt32 v hv]

theorem loadInt32_storeInt32_disjoint {b b' : Buffer} {a a' : Nat} {v : Int}
    (h : storeInt32 b a v = some b') (hd : a' + 4 ≤ a ∨ a + 4 ≤ a') :
    loadInt32 b' a' = loadInt32 b a' := by
  unfold storeInt32 at h
  rw [loadInt32, loadInt32, load32_store32_disjoint h hd]

theorem load32_storeInt32_disjoint {b b' : Buffer} {a a' : Nat} {v : Int}
    (h : storeInt32 b a v = some b') (hd : a' + 4 ≤ a ∨ a + 4 ≤ a') :
    load32 b' a' = load32 b a' :=
  load32_store32_disjoint h hd

theorem storeInt32_getElem?_outside {b b' : Buffer} {a : Nat} {v : Int}
    (h : storeInt32 b a v = some b') {i : Nat} (hi : i < a ∨ a + 4 ≤ i) : b'[i]? = b[i]? :=
  store32_getElem?_outside h hi

theorem enroll_result_t.load_eq (b : Buffer) (p : Nat) :
    enroll_result_t.load b p =
      (load32 b (p + 0)).bind fun status =>
      (loadInt32 b (p + 4)).bind fun percentage =>
      (loadInt32 b (p + 8)).bind fun dx =>
      (loadInt32 b (p + 12)).bind fun dy =>
      (loadInt32 b (p + 16)).bind fun unk0 =>
      (loadInt32 b (p + 20)).bind fun score =>
      (loadInt32 b (p + 24)).bind fun unk1 =>
      (loadInt32 b (p + 28)).bind fun unk2 =>
      some ⟨status, percentage, dx, dy, unk0, score, unk1, unk2⟩ :=
  rfl

theorem enroll_result_t.store_eq (b : Buffer) (p : Nat) (r : enroll_result_t) :
    enroll_result_t.store b p r =
      (store32 b (p + 0) r.status).bind fun b1 =>
      (storeInt32 b1 (p + 4) r.percentage).bind fun b2 =>
      (storeInt32 b2 (p + 8) r.dx).bind fun b3 =>
      (storeInt32 b3 (p + 12) r.dy).bind fun b4 =>
      (storeInt32 b4 (p + 16) r.unk0).bind fun b5 =>
      (storeInt32 b5 (p + 20) r.score).bind fun b6 =>
      (storeInt32 b6 (p + 24) r.unk1).bind fun b7 =>
      storeInt32 b7 (p + 28) r.unk2 :=
  rfl

theorem getElem?_congr_index (b : Buffer) {i j : Nat} (h : i = j) : b[i]? = b[j]? := by
  rw [h]

set_option maxHeartbeats 1000000 in
theorem enroll_result_t.load_then_store (b : Buffer) (p : Nat) (hp : p + 32 ≤ b.length) :
    ∃ r : enroll_result_t, enroll_result_t.load b p = some r ∧ r.InRange ∧
      ∀ (t : Buffer) (q : Nat), q + 32 ≤ t.length →
        ∃ t' : Buffer, enroll_result_t.store t q r = some t' ∧ t'.length = t.length ∧
          ∀ i : Nat, t'[i]? = if q ≤ i ∧ i < q + 32 then b[p + (i - q)]? else t[i]? := by
  obtain ⟨u0, hu0⟩ := load32_isSome (b := b) (a := p + 0) (by omega)
  obtain ⟨u1, hu1⟩ := load32_isSome (b := b) (a := p + 4) (by omega)
  obtain ⟨u2, hu2⟩ := load32_isSome (b := b) (a := p + 8) (by omega)
  obtain ⟨u3, hu3⟩ := load32_isSome (b := b) (a := p + 12) (by omega)
  obtain ⟨u4, hu4⟩ := load32_isSome (b := b) (a := p + 16) (by omega)
  obtain ⟨u5, hu5⟩ := load32_isSome (b := b) (a := p + 20) (by omega)
  obtain ⟨u6, hu6⟩ := load32_isSome (b := b) (a := p + 24) (by omega)
  obtain ⟨u7, hu7⟩ := load32_isSome (b := b) (a := p + 28) (by omega)
  have hv1 : loadInt32 b (p + 4) = some (int32OfU32 u1) := by
    rw [loadInt32, hu1, Option.map_some']
  have hv2 : loadInt32 b (p + 8) = some (int32OfU32 u2) := by
    rw [loadInt32, hu2, Option.map_some']
  have hv3 : loadInt32 b (p + 12) = some (int32OfU32 u3) := by
    rw [loadInt32, hu3, Option.map_some']
  have hv4 : loadInt32 b (p + 16) = some (int32OfU32 u4) := by
    rw [loadInt32, hu4, Option.map_some']
  have hv5 : loadInt32 b (p + 20) = some (int32OfU32 u5) := by
    rw [loadInt32, hu5, Option.map_some']
  have hv6 : loadInt32 b (p + 24) = some (int32OfU32 u6) := by
    rw [loadInt32, hu6, Option.map_some']
  have hv7 : loadInt32 b (p + 28) = some (int32OfU32 u7) := by
    rw [loadInt32, hu7, Option.map_some']
  refine ⟨⟨u0, int32OfU32 u1, int32OfU32 u2, int32OfU32 u3, int32OfU32 u4, int32OfU32 u5,
    int32OfU32 u6, int32OfU32 u7⟩, ?_, ?_, ?_⟩
  · rw [enroll_result_t.load_eq, hu0, Option.some_bind, hv1, Option.some_bind, hv2,
      Option.some_bind, hv3, Option.some_bind, hv4, Option.some_bind, hv5, Option.some_bind,
      hv6, Option.some_bind, hv7, Option.some_bind]
  · exact ⟨load32_lt hu0, int32OfU32_range _ (load32_lt hu1),
      int32OfU32_range _ (load32_lt hu2), int32OfU32_range _ (load32_lt hu3),
      int32OfU32_range _ (load32_lt hu4), int32OfU32_range _ (load32_lt hu5),
      int32OfU32_range _ (load32_lt hu6), int32OfU32_range _ (load32_lt hu7)⟩
  · intro t q hq
    obtain ⟨t1, s1⟩ := store32_isSome (b := t) (a := q + 0) (v := u0) (by omega)
    have l1 := store32_length s1
    obtain ⟨t2, s2⟩ := storeInt32_isSome t1 (q + 4) (int32OfU32 u1) (by omega)
    have l2 := storeInt32_length s2
    obtain ⟨t3, s3⟩ := storeInt32_isSome t2 (q + 8) (int32OfU32 u2) (by omega)
    have l3 := storeInt32_length s3
    obtain ⟨t4, s4⟩ := storeInt32_isSome t3 (q + 12) (int32OfU32 u3) (by omega)
    have l4 := storeInt32_length s4
    obtain ⟨t5, s5⟩ := storeInt32_isSome t4 (q + 16) (int32OfU32 u4) (by omega)
    have l5 := storeInt32_length s5
    obtain ⟨t6, s6⟩ := storeInt32_isSome t5 (q + 20) (int32OfU32 u5) (by omega)
    have l6 := storeInt32_length s6
    obtain ⟨t7, s7⟩ := storeInt32_isSome t6 (q + 24) (int32OfU32 u6) (by omega)
    have l7 := storeInt32_length s7
    obtain ⟨t8, s8⟩ := storeInt32_isSome t7 (q + 28) (int32OfU32 u7) (by omega)
    have l8 := storeInt32_length s8
    refine ⟨t8, ?_, by omega, ?_⟩
    · rw [enroll_result_t.store_eq]
      dsimp only
      rw [s1, Option.some_bind, s2, Option.some_bind, s3, Option.some_bind, s4,
        Option.some_bind, s5, Option.some_bind, s6, Option.some_bind, s7, Option.some_bind,
        s8]
    · intro i
      rw [storeInt32_copy hu7 s8 i, storeInt32_copy hu6 s7 i, storeInt32_copy hu5 s6 i,
        storeInt32_copy hu4 s5 i, storeInt32_copy hu3 s4 i, storeInt32_copy hu2 s3 i,
        storeInt32_copy hu1 s2 i, store32_copy hu0 s1 i]
      by_cases hin : q ≤ i ∧ i < q + 32
      · rw [if_pos hin]
        split_ifs <;> first | exact getElem?_congr_index b (by omega) | omega
      · rw [if_neg hin]
        split_ifs <;> first | omega | rfl

theorem enroll_result_t.store_then_load (b : Buffer) (p : Nat) (r : enroll_result_t)
    (hr : r.InRange) (hp : p + 32 ≤ b.length) :
    ∃ b' : Buffer, enroll_result_t.store b p r = some b' ∧ b'.length = b.length ∧
      enroll_result_t.load b' p = some r ∧
      ∀ i : Nat, i < p ∨ p + 32 ≤ i → b'[i]? = b[i]? := by
  obtain ⟨r0, r1, r2, r3, r4, r5, r6, r7⟩ := hr
  obtain ⟨b1, s1⟩ := store32_isSome (b := b) (a := p + 0) (v := r.status) (by omega)
  have l1 := store32_length s1
  obtain ⟨b2, s2⟩ := storeInt32_isSome b1 (p + 4) r.percentage (by omega)
  have l2 := storeInt32_length s2
  obtain ⟨b3, s3⟩ := storeInt32_isSome b2 (p + 8) r.dx (by omega)
  have l3 := storeInt32_length s3
  obtain ⟨b4, s4⟩ := storeInt32_isSome b3 (p + 12) r.dy (by omega)
  have l4 := storeInt32_length s4
  obtain ⟨b5, s5⟩ := storeInt32_isSome b4 (p + 16) r.unk0 (by omega)
  have l5 := storeInt32_length s5
  obtain ⟨b6, s6⟩ := storeInt32_isSome b5 (p + 20) r.score (by omega)
  have l6 := storeInt32_length s6
  obtain ⟨b7, s7⟩ := storeInt32_isSome b6 (p + 24) r.unk1 (by omega)
  have l7 := storeInt32_length s7
  obtain ⟨b8, s8⟩ := storeInt32_isSome b7 (p + 28) r.unk2 (by omega)
  have l8 := storeInt32_length s8
  have g0 : load32 b8 (p + 0) = some r.status := by
    rw [load32_storeInt32_disjoint s8 (by omega),
      load32_storeInt32_disjoint s7 (by omega),
      load32_storeInt32_disjoint s6 (by omega),
      load32_storeInt32_disjoint s5 (by omega),
      load32_storeInt32_disjoint s4 (by omega),
      load32_storeInt32_disjoint s3 (by omega),
      load32_storeInt32_disjoint s2 (by omega),
      load32_store32_same s1, Nat.mod_eq_of_lt r0]
  have g1 : loadInt32 b8 (p + 4) = some r.percentage := by
    rw [loadInt32_storeInt32_disjoint s8 (by omega),
      loadInt32_storeInt32_disjoint s7 (by omega),
      loadInt32_storeInt32_disjoint s6 (by omega),
      loadInt32_storeInt32_disjoint s5 (by omega),
      loadInt32_storeInt32_disjoint s4 (by omega),
      loadInt32_storeInt32_disjoint s3 (by omega),
      loadInt32_storeInt32_same s2 r1]
  have g2 : loadInt32 b8 (p + 8) = some r.dx := by
    rw [loadInt32_storeInt32_disjoint s8 (by omega),
      loadInt32_storeInt32_disjoint s7 (by omega),
      loadInt32_storeInt32_disjoint s6 (by omega),
      loadInt32_storeInt32_disjoint s5 (by omega),
      loadInt32_storeInt32_disjoint s4 (by omega),
      loadInt32_storeInt32_same s3 r2]
  have g3 : loadInt32 b8 (p + 12) = some r.dy := by
    rw [loadInt32_storeInt32_disjoint s8 (by omega),
      loadInt32_storeInt32_disjoint s7 (by omega),
      loadInt32_storeInt32_disjoint s6 (by omega),
      loadInt32_storeInt32_disjoint s5 (by omega),
      loadInt32_storeInt32_same s4 r3]
  have g4 : loadInt32 b8 (p + 16) = some r.unk0 := by
    rw [loadInt32_storeInt32_disjoint s8 (by omega),
      loadInt32_storeInt32_disjoint s7 (by omega),
      loadInt32_storeInt32_disjoint s6 (by omega),
      loadInt32_storeInt32_same s5 r4]
  have g5 : loadInt32 b8 (p + 20) = some r.score := by
    rw [loadInt32_storeInt32_disjoint s8 (by omega),
      loadInt32_storeInt32_disjoint s7 (by omega),
      loadInt32_storeInt32_same s6 r5]
  have g6 : loadInt32 b8 (p + 24) = some r.unk1 := by
    rw [loadInt32_storeInt32_disjoint s8 (by omega),
      loadInt32_storeInt32_same s7 r6]
  have g7 : loadInt32 b8 (p + 28) = some r.unk2 := by
    rw [loadInt32_storeInt32_same s8 r7]
  refine ⟨b8, ?_, by omega, ?_, ?_⟩
  · rw [enroll_result_t.store_eq, s1, Option.some_bind, s2, Option.some_bind, s3,
      Option.some_bind, s4, Option.some_bind, s5, Option.some_bind, s6, Option.some_bind, s7,
      Option.some_bind, s8]
  · rw [enroll_result_t.load_eq, g0, Option.some_bind, g1, Option.some_bind, g2,
      Option.some_bind, g3, Option.some_bind, g4, Option.some_bind, g5, Option.some_bind, g6,
      Option.some_bind, g7, Option.some_bind]
  · intro i hi
    rw [storeInt32_getElem?_outside s8 (by omega),
      storeInt32_getElem?_outside s7 (by omega),
      storeInt32_getElem?_outside s6 (by omega),
      storeInt32_getElem?_outside s5 (by omega),
      storeInt32_getElem?_outside s4 (by omega),
      storeInt32_getElem?_outside s3 (by omega),
      storeInt32_getElem?_outside s2 (by omega),
      store32_getElem?_outside s1 (by omega)]

theorem ImageResult.ofUInt32_toUInt32_imageResult (s : ImageResult) :
    ImageResult.ofUInt32 s.toUInt32 = some s := by
  cases s <;> rfl

theorem ImageResult.toUInt32_lt_imageResult (s : ImageResult) : s.toUInt32 < 2 ^ 32 := by
  cases s <;> decide

/-- C11 (enrollment result wire layout). `enroll_result_t` is 32 bytes: eight members of 4
bytes each, in the order `status` (offset 0, an `ImageResult`), `percentage` (4), `dx` (8),
`dy` (12), `unk0` (16), `score` (20), `unk1` (24), `unk2` (28). Every block of 32 bytes
reads as a result whose eight fields, assigned to any 32 bytes, reproduce the block (and
assigned back in place inside a larger buffer leave the buffer as it is); and every result
whose fields are values of their C types (`status` a 32-bit value, among them the nine
`ImageResult` enumerators, the seven `int` fields between -2^31 and 2^31 - 1, negative
ones included) reads back unchanged after it was assigned. -/
theorem enroll_result_t_layout_round_trip :
    enroll_result_t.sizeof = 32 ∧
    enroll_result_t.members.map (fun m => (m.1, enroll_result_t.offsetof m.1, m.2.size)) =
      [(.status, 0, 4), (.percentage, 4, 4), (.dx, 8, 4), (.dy, 12, 4), (.unk0, 16, 4),
       (.score, 20, 4), (.unk1, 24, 4), (.unk2, 28, 4)] ∧
    (∀ blk : Buffer, blk.length = 32 →
      ∃ r : enroll_result_t, enroll_result_t.load blk 0 = some r ∧ r.InRange ∧
        ∀ t : Buffer, t.length = 32 → enroll_result_t.store t 0 r = some blk) ∧
    (∀ (b : Buffer) (p : Nat), p + 32 ≤ b.length →
      ∃ r : enroll_result_t, enroll_result_t.load b p = some r ∧
        enroll_result_t.store b p r = some b) ∧
    (∀ (r : enroll_result_t) (b : Buffer) (p : Nat), r.InRange → p + 32 ≤ b.length →
      ∃ b' : Buffer, enroll_result_t.store b p r = some b' ∧
        enroll_result_t.load b' p = some r ∧
        (∀ i : Nat, i < p ∨ p + 32 ≤ i → b'[i]? = b[i]?)) ∧
    (∀ s : ImageResult, s.toUInt32 < 2 ^ 32 ∧ ImageResult.ofUInt32 s.toUInt32 = some s) := by
  refine ⟨by decide, by decide, ?_, ?_, ?_, ?_⟩
  · intro blk hblk
    obtain ⟨r, hload, hrange, hstore⟩ := enroll_result_t.load_then_store blk 0 (by omega)
    refine ⟨r, hload, hrange, ?_⟩
    intro t ht
    obtain ⟨t', hs, hl, hbytes⟩ := hstore t 0 (by omega)
    rw [hs]
    congr 1
    apply List.ext_getElem?
    intro i
    rw [hbytes i]
    split
    · exact getElem?_congr_index blk (by omega)
    · rw [List.getElem?_eq_none (by omega), List.getElem?_eq_none (by omega)]
  · intro b p hp
    obtain ⟨r, hload, _, hstore⟩ := enroll_result_t.load_then_store b p hp
    refine ⟨r, hload, ?_⟩
    obtain ⟨t', hs, hl, hbytes⟩ := hstore b p hp
    rw [hs]
    congr 1
    apply List.ext_getElem?
    intro i
    rw [hbytes i]
    split
    · exact getElem?_congr_index b (by omega)
    · rfl
  · intro r b p hr hp
    obtain ⟨b', hs, _, hload, hframe⟩ := enroll_result_t.store_then_load b p r hr hp
    exact ⟨b', hs, hload, hframe⟩
  · intro s
    exact ⟨s.toUInt32_lt_imageResult, s.ofUInt32_toUInt32_imageResult⟩

/-- Witness of C11: the block 0x80 .. 0x9f decoded and encoded, and a result with negative
`dx`, `dy` and `score` encoded and decoded. -/
theorem enroll_result_t_layout_round_trip_witness :
    (sampleBlock.length = 32 ∧ sampleEnrollResult.InRange) ∧
    (∃ r : enroll_result_t, enroll_result_t.load sampleBlock 0 = some r ∧
      enroll_result_t.store (List.replicate 32 0) 0 r = some sampleBlock) ∧
    (∃ b' : Buffer, enroll_result_t.store (List.replicate 32 0) 0 sampleEnrollResult = some b' ∧
      enroll_result_t.load b' 0 = some sampleEnrollResult) := by
  have hr : sampleEnrollResult.InRange := by
    unfold enroll_result_t.InRange sampleEnrollResult
    decide
  refine ⟨⟨by decide, hr⟩, ?_, ?_⟩
  · obtain ⟨r, hload, _, hstore⟩ :=
      enroll_result_t_layout_round_trip.2.2.1 sampleBlock (by decide)
    exact ⟨r, hload, hstore _ (by decide)⟩
  · obtain ⟨b', hs, hload, _⟩ :=
      enroll_result_t_layout_round_trip.2.2.2.2.1 sampleEnrollResult (List.replicate 32 0) 0
        hr (by decide)
    exact ⟨b', hs, hload⟩

/-! ## Lemmas on the enrollment state machine -/

theorem EnrollMachine.consistent_initial : EnrollMachine.initial.Consistent := by
  constructor
  · intro n h
    cases h
  · intro h
    cases h

theorem EnrollMachine.consistent_call (m : EnrollMachine) (c : EnrollCall)
    (answer : DispatchResult) (h : m.Consistent) : (m.call c answer).2.Consistent := by
  obtain ⟨state, dispatched, history⟩ := m
  obtain ⟨h1, h2⟩ := h
  rcases state with _ | _ | _ | _ | (_ | n) | _ <;> cases c <;> cases answer <;>
    simp_all [EnrollMachine.Consistent, EnrollMachine.call, EnrollState.next,
      enrollSucceededSinceInitialize, finalizeSucceededSinceInitialize]

theorem EnrollMachine.consistent_run (calls : List (EnrollCall × DispatchResult)) :
    ∀ m : EnrollMachine, m.Consistent → (m.run calls).Consistent := by
  induction calls with
  | nil => intro m h; exact h
  | cons x rest ih =>
    intro m h
    obtain ⟨c, answer⟩ := x
    exact ih _ (EnrollMachine.consistent_call m c answer h)

theorem EnrollMachine.call_out_of_order (m : EnrollMachine) (c : EnrollCall)
    (answer : DispatchResult) (h : m.state.next c = none) :
    (m.call c answer).1 = .orderingViolation ∧
    (m.call c answer).2.dispatched = m.dispatched ∧
    (m.call c answer).2.state = m.state := by
  unfold EnrollMachine.call
  rw [h]
  exact ⟨rfl, rfl, rfl⟩

/-- C12 (enrollment ordering), on the state machine modelled from the specification. After
any sequence of enrollment method calls with any arguments and any dispatcher answers,
started in `Idle`: if no `Enroll` call has succeeded since the latest successful
`InitializeEnroll`, then `FinalizeEnroll` reports an ordering violation and dispatches
nothing to the trustlet; and if `FinalizeEnroll` has not succeeded since then, then
`SaveEnrolledPrint`, for any gid and fid, reports an ordering violation and dispatches
nothing. In order, with every call answered `ok`, the sequence of the specification's
scenario is accepted to its end. -/
theorem enrollment_ordering (calls : List (EnrollCall × DispatchResult))
    (answer : DispatchResult) :
    (enrollSucceededSinceInitialize (EnrollMachine.initial.run calls).history = false →
      ((EnrollMachine.initial.run calls).call .FinalizeEnroll answer).1
        = .orderingViolation ∧
      ((EnrollMachine.initial.run calls).call .FinalizeEnroll answer).2.dispatched
        = (EnrollMachine.initial.run calls).dispatched) ∧
    (∀ gid fid : Nat,
      finalizeSucceededSinceInitialize (EnrollMachine.initial.run calls).history = false →
      ((EnrollMachine.initial.run calls).call (.SaveEnrolledPrint gid fid) answer).1
        = .orderingViolation ∧
      ((EnrollMachine.initial.run calls).call (.SaveEnrolledPrint gid fid) answer).2.dispatched
        = (EnrollMachine.initial.run calls).dispatched) ∧
    ((EnrollMachine.initial.run
        (enrollScenario ++ [(.FinalizeEnroll, .ok), (.SaveEnrolledPrint 1 7, .ok)])).history.map
          Prod.snd = List.replicate 8 .ok ∧
      (EnrollMachine.initial.run
        (enrollScenario ++ [(.FinalizeEnroll, .ok), (.SaveEnrolledPrint 1 7, .ok)])).state
          = .Idle) := by
  have hc := EnrollMachine.consistent_run calls _ EnrollMachine.consistent_initial
  generalize EnrollMachine.initial.run calls = m at hc
  obtain ⟨h1, h2⟩ := hc
  refine ⟨?_, ?_, by decide⟩
  · intro hno
    have hnext : m.state.next .FinalizeEnroll = none := by
      obtain ⟨state, dispatched, history⟩ := m
      rcases state with _ | _ | _ | _ | (_ | n) | _ <;> try rfl
      have := h1 n rfl
      rw [hno] at this
      cases this
    have h := EnrollMachine.call_out_of_order m .FinalizeEnroll answer hnext
    exact ⟨h.1, h.2.1⟩
  · intro gid fid hno
    have hnext : m.state.next (.SaveEnrolledPrint gid fid) = none := by
      obtain ⟨state, dispatched, history⟩ := m
      rcases state with _ | _ | _ | _ | _ | _ <;> try rfl
      have := h2 rfl
      rw [hno] at this
      cases this
    have h := EnrollMachine.call_out_of_order m (.SaveEnrolledPrint gid fid) answer hnext
    exact ⟨h.1, h.2.1⟩

/-- Witness of C12: after `InitializeEnroll` and no `Enroll`, `FinalizeEnroll` and
`SaveEnrolledPrint(1, 7)` are rejected with nothing dispatched (4 calls before and after). -/
theorem enrollment_ordering_witness :
    (enrollSucceededSinceInitialize (EnrollMachine.initial.run (enrollScenario.take 4)).history
        = false ∧
      finalizeSucceededSinceInitialize (EnrollMachine.initial.run (enrollScenario.take 4)).history
        = false) ∧
    (EnrollMachine.initial.run (enrollScenario.take 4)).dispatched.length = 4 ∧
    ((EnrollMachine.initial.run (enrollScenario.take 4)).call .FinalizeEnroll .ok).1
      = .orderingViolation ∧
    ((EnrollMachine.initial.run (enrollScenario.take 4)).call .FinalizeEnroll .ok).2.dispatched
      = (EnrollMachine.initial.run (enrollScenario.take 4)).dispatched ∧
    ((EnrollMachine.initial.run (enrollScenario.take 4)).call (.SaveEnrolledPrint 1 7) .ok).1
      = .orderingViolation :=
  ⟨by decide, by decide,
    ((enrollment_ordering (enrollScenario.take 4) .ok).1 (by decide)).1,
    ((enrollment_ordering (enrollScenario.take 4) .ok).1 (by decide)).2,
    ((enrollment_ordering (enrollScenario.take 4) .ok).2.1 1 7 (by decide)).1⟩

end egistec.ganges
